import Mathlib

/-!
Verification of the emission engine in `src/src/compiler/printer.ts`
(namespace `ts`, function `printFiles` / `createFilePrinter`).

The development shallowly embeds the printer's data model and operations:

* the generated-name resolver (`isUniqueName`, `makeTempVariableName`,
  `makeUniqueName`, `generateIdentifier`, `getGeneratedIdentifier`,
  `getSourceNodeForGeneratedName`, `getNodeIdForGeneratedIdentifier`);
* the helper-injection logic (`emitEmitHelpers`) and the per-pass reset
  performed by `doPrint`;
* property/element access emission with constant folding
  (`emitPropertyAccessExpression`, `needsDotDotForPropertyAccess`,
  `tryEmitConstantValue`, `tryGetConstEnumValue`);
* the list-emission algorithm (`emitNodeList` and its line heuristics);
* the substitution hook (`tryEmitSubstitute`);
* the dispatch wrapper (`emitNodeWithWorker`).

External collaborators (the resolver, the output sink, the sourcemap and
comment writers, and source-position utilities that live outside `src/`)
are modelled as abstract functions supplied through environment records.
Machine integers are modelled as `Nat` (the TS bit masks fit easily).
The two unbounded search loops of the name resolver are given an explicit
fuel parameter and return `Option`, since their termination depends on the
external `hasGlobalName` predicate rejecting only finitely many names.
-/

namespace TSPrinter

/-- Output atoms: one atom per call to the output sink
(`write`, `writeLine`, `increaseIndent`, `decreaseIndent`). -/
inductive OutAtom where
  | text (s : String)
  | newline
  | indentInc
  | indentDec
  deriving DecidableEq, Repr

/-- The per-node information consumed by the printer's layout heuristics:
`nodeIsSynthesized(node)`, `positionIsSynthesized(node.pos)` and the
`startsOnNewLine` hint (which in the source may be `undefined`, hence
`Option Bool`). -/
structure PNode where
  synthesized : Bool
  posIsSynthesized : Bool
  startsOnNewLine : Option Bool
  deriving DecidableEq, Repr

/-! ## Generated-name resolver -/

/-- `TempFlags` from the head of `printer.ts`:
`Auto = 0`, `CountMask = 0x0FFFFFFF`, `_i = 0x10000000`. -/
def TempFlags.auto : Nat := 0

def TempFlags.countMask : Nat := 0x0FFFFFFF

/-- The `TempFlags._i` preference bit. -/
def TempFlags.flagI : Nat := 0x10000000

/-- `GeneratedIdentifierKind` of a generated identifier:
the generation strategy tag {Auto, Loop, Unique, Node}. -/
inductive GeneratedIdentifierKind where
  | auto
  | loop
  | unique
  | node
  deriving DecidableEq, Repr

/-- The payload of a printed node, restricted to the kinds the
name-resolver claims exercise: plain identifiers, generated identifiers,
function/class declarations and export assignments (which generate the
name `default`), class expressions (name `class`), and a catch-all
`other` for kinds that fall to the `default:` arm of
`generateNameForNode` (a fresh temp variable). -/
inductive PrKind where
  | ident (text : String)
  | genIdent (kind : GeneratedIdentifierKind) (text : String)
  | exportDefaultDecl
  | classExpr
  | other
  deriving DecidableEq, Repr

/-- A node as seen by the name resolver: a node id (`getNodeId`), the
kind payload, and the optional `original` back-reference. -/
inductive PrNode where
  | mk (id : Nat) (kind : PrKind) (original : Option PrNode)

def PrNode.id : PrNode → Nat
  | .mk i _ _ => i

def PrNode.kind : PrNode → PrKind
  | .mk _ k _ => k

def PrNode.original : PrNode → Option PrNode
  | .mk _ _ o => o

/-- `node.autoGenerateKind` (defined only on generated identifiers). -/
def PrNode.autoGenerateKind : PrNode → Option GeneratedIdentifierKind
  | .mk _ (.genIdent k _) _ => some k
  | _ => none

/-- `isIdentifier(node)`: both plain and generated identifiers. -/
def PrNode.isIdentifier : PrNode → Bool
  | .mk _ (.ident _) _ => true
  | .mk _ (.genIdent _ _) _ => true
  | _ => false

/-- The environment of the name resolver: the semantic collaborator
predicate `resolver.hasGlobalName` and the file's lexical identifier
table `currentFileIdentifiers` (a `Map<string>` keyed by name). -/
structure NameGenEnv where
  hasGlobalName : String → Bool
  currentFileIdentifiers : List String

/-- The mutable session state touched by the name resolver:
`tempFlags`, `generatedNameSet` (a `Map<string>` whose keys are the
names recorded by `makeUniqueName`), and the memo table
`nodeToGeneratedName` (a node-id indexed array). -/
structure NameGenState where
  tempFlags : Nat
  generatedNameSet : List String
  nodeToGeneratedName : List (Nat × String)
  deriving DecidableEq, Repr

/-- The empty session state installed by `doPrint` at the start of a
file pass (`nodeToGeneratedName = []; generatedNameSet = {}` and the
reset `tempFlags = TempFlags.Auto`). -/
def NameGenState.initial : NameGenState :=
  { tempFlags := TempFlags.auto, generatedNameSet := [], nodeToGeneratedName := [] }

/-- `isUniqueName(name)`: not a global, not lexically present in the
file, and not already recorded in `generatedNameSet`. -/
def isUniqueName (env : NameGenEnv) (st : NameGenState) (name : String) : Bool :=
  !env.hasGlobalName name &&
    !env.currentFileIdentifiers.contains name &&
    !st.generatedNameSet.contains name

/-- The name tried for loop counter `count` in `makeTempVariableName`:
`"_" + String.fromCharCode(CharacterCodes.a + count)` for `count < 26`,
`"_" + (count - 26)` otherwise. -/
def tempNameForCount (count : Nat) : String :=
  if count < 26 then "_" ++ String.singleton (Char.ofNat (97 + count))
  else "_" ++ toString (count - 26)

/-- The `while (true)` loop of `makeTempVariableName`, with fuel.
Each iteration reads `count = tempFlags & CountMask`, increments
`tempFlags`, skips counts 8 and 13 (the letters `i` and `n`), and
returns the first candidate accepted by `isUniqueName`. -/
def makeTempVariableNameLoop (env : NameGenEnv) :
    Nat → NameGenState → Option (String × NameGenState)
  | 0, _ => none
  | fuel + 1, st =>
    let count := st.tempFlags &&& TempFlags.countMask
    let st' : NameGenState := { st with tempFlags := st.tempFlags + 1 }
    if count ≠ 8 && count ≠ 13 then
      let name := tempNameForCount count
      if isUniqueName env st' name then some (name, st')
      else makeTempVariableNameLoop env fuel st'
    else makeTempVariableNameLoop env fuel st'

/-- `makeTempVariableName(flags)`: if a preference flag is passed and its
bit is not yet set in `tempFlags`, try the dedicated name (`"_i"` for
`TempFlags._i`, otherwise `"_n"`); on success set the bit and return.
Otherwise fall through to the counter loop. -/
def makeTempVariableName (env : NameGenEnv) (flags : Nat) (fuel : Nat)
    (st : NameGenState) : Option (String × NameGenState) :=
  if flags ≠ 0 && (st.tempFlags &&& flags) = 0 then
    let name := if flags = TempFlags.flagI then "_i" else "_n"
    if isUniqueName env st name then
      some (name, { st with tempFlags := st.tempFlags ||| flags })
    else makeTempVariableNameLoop env fuel st
  else makeTempVariableNameLoop env fuel st

/-- The search loop of `makeUniqueName`: try `baseName + i` for
`i = 1, 2, ...` until `isUniqueName` accepts, then record the winner in
`generatedNameSet`. -/
def makeUniqueNameLoop (env : NameGenEnv) (baseName : String) :
    Nat → Nat → NameGenState → Option (String × NameGenState)
  | 0, _, _ => none
  | fuel + 1, i, st =>
    let generatedName := baseName ++ toString i
    if isUniqueName env st generatedName then
      some (generatedName,
        { st with generatedNameSet := generatedName :: st.generatedNameSet })
    else makeUniqueNameLoop env baseName fuel (i + 1) st

/-- `baseName.charCodeAt(baseName.length - 1) === CharacterCodes._`:
the last character is an underscore (for the empty string
`charCodeAt(-1)` is `NaN`, so the test is false). -/
def lastCharIsUnderscore (s : String) : Bool :=
  s.data.getLast? == some '_'

/-- `makeUniqueName(baseName)`: append an `_` unless the base already
ends in one, then search for the first free `baseName + i`. -/
def makeUniqueName (env : NameGenEnv) (baseName : String) (fuel : Nat)
    (st : NameGenState) : Option (String × NameGenState) :=
  let baseName := if lastCharIsUnderscore baseName then baseName else baseName ++ "_"
  makeUniqueNameLoop env baseName fuel 1 st

/-- `getTextOfNode` restricted to the node kinds of this embedding.
In the source, a generated identifier re-enters the resolver here
(`getGeneratedIdentifier`); the embedding flattens that re-entry to the
node's stored text — no settled claim depends on a `Node`-strategy chain
ending in a further generated identifier. -/
def getTextOfNodePr : PrNode → String
  | .mk _ (.ident t) _ => t
  | .mk _ (.genIdent _ t) _ => t
  | _ => ""

/-- `generateNameForExportDefault()`. -/
def generateNameForExportDefault (env : NameGenEnv) (fuel : Nat)
    (st : NameGenState) : Option (String × NameGenState) :=
  makeUniqueName env "default" fuel st

/-- `generateNameForClassExpression()`. -/
def generateNameForClassExpression (env : NameGenEnv) (fuel : Nat)
    (st : NameGenState) : Option (String × NameGenState) :=
  makeUniqueName env "class" fuel st

/-- `generateNameForNode(node)`, restricted to the kinds of the
embedding: identifiers use `makeUniqueName(getTextOfNode(node))`;
function/class declarations and export assignments use the `default`
base; class expressions use the `class` base; every other kind falls to
`makeTempVariableName(TempFlags.Auto)`. -/
def generateNameForNode (env : NameGenEnv) (fuel : Nat) (node : PrNode)
    (st : NameGenState) : Option (String × NameGenState) :=
  match node.kind with
  | .ident _ => makeUniqueName env (getTextOfNodePr node) fuel st
  | .genIdent _ _ => makeUniqueName env (getTextOfNodePr node) fuel st
  | .exportDefaultDecl => generateNameForExportDefault env fuel st
  | .classExpr => generateNameForClassExpression env fuel st
  | .other => makeTempVariableName env TempFlags.auto fuel st

/-- `getSourceNodeForGeneratedName(name)`: follow the `original` chain;
after each step, stop early when the node reached is itself a
`Node`-strategy generated identifier with a different node id. -/
def getSourceNodeForGeneratedName (name : PrNode) : PrNode :=
  match name with
  | .mk _ _ none => name
  | .mk nodeId _ (some o) =>
    if o.isIdentifier && o.autoGenerateKind = some .node && o.id ≠ nodeId then o
    else getSourceNodeForGeneratedName o

/-- `generateIdentifier(node)`: dispatch on the strategy tag. A node
that is not a generated identifier falls through the `switch` (the
source returns `undefined`; the embedding returns `none`). -/
def generateIdentifier (env : NameGenEnv) (fuel : Nat) (node : PrNode)
    (st : NameGenState) : Option (String × NameGenState) :=
  match node.autoGenerateKind with
  | some .auto => makeTempVariableName env TempFlags.auto fuel st
  | some .loop => makeTempVariableName env TempFlags.flagI fuel st
  | some .unique => makeUniqueName env (getTextOfNodePr node) fuel st
  | some .node => generateNameForNode env fuel (getSourceNodeForGeneratedName node) st
  | none => none

/-- `getNodeIdForGeneratedIdentifier(node)`: the node's own id for the
Auto/Loop/Unique strategies, the id of the traced source node for the
Node strategy, `undefined` for non-generated identifiers. -/
def getNodeIdForGeneratedIdentifier (node : PrNode) : Option Nat :=
  match node.autoGenerateKind with
  | some .auto => some node.id
  | some .loop => some node.id
  | some .unique => some node.id
  | some .node => some (getSourceNodeForGeneratedName node).id
  | none => none

/-- Modelled from the spec: `unescapeIdentifier` is an external utility
collaborator (it lives outside `src/`); the spec describes the resolver
as returning the generated text unchanged, so it is the identity. -/
def unescapeIdentifier (identifier : String) : String := identifier

/-- `getGeneratedIdentifier(node)`:
`nodeToGeneratedName[id] || (nodeToGeneratedName[id] = unescapeIdentifier(generateIdentifier(node)))`.
The `||` is the JavaScript truthiness test, so an empty cached string
would be regenerated; the memo is keyed by
`getNodeIdForGeneratedIdentifier`. -/
def getGeneratedIdentifier (env : NameGenEnv) (fuel : Nat) (node : PrNode)
    (st : NameGenState) : Option String × NameGenState :=
  match getNodeIdForGeneratedIdentifier node with
  | none => (none, st)
  | some id =>
    match st.nodeToGeneratedName.lookup id with
    | some cached =>
      if cached = "" then
        match generateIdentifier env fuel node st with
        | some (t, st') =>
          let u := unescapeIdentifier t
          (some u, { st' with nodeToGeneratedName := (id, u) :: st'.nodeToGeneratedName })
        | none => (none, st)
      else (some cached, st)
    | none =>
      match generateIdentifier env fuel node st with
      | some (t, st') =>
        let u := unescapeIdentifier t
        (some u, { st' with nodeToGeneratedName := (id, u) :: st'.nodeToGeneratedName })
      | none => (none, st)

/-- Resolve a list of generated-identifier references in order,
collecting the resolved texts — the shape of one file pass as seen by
the resolver. -/
def resolveAll (env : NameGenEnv) (fuel : Nat) :
    List PrNode → NameGenState → List (Option String) × NameGenState
  | [], st => ([], st)
  | n :: ns, st =>
    let (r, st') := getGeneratedIdentifier env fuel n st
    let (rs, st'') := resolveAll env fuel ns st'
    (r :: rs, st'')

/-! ## Runtime-compatibility helper injection -/

/-- The compiler options consulted by the embedded fragment.
`targetBelowES6` is `languageVersion < ScriptTarget.ES6`;
`moduleKindSet` is the truthiness of `moduleKind` in `doPrint`. -/
structure CompilerOptions where
  noEmitHelpers : Bool
  emitDecoratorMetadata : Bool
  removeComments : Bool
  isolatedModules : Bool
  targetBelowES6 : Bool
  moduleKindSet : Bool
  deriving DecidableEq, Repr

/-- The `NodeFlags` bits of a source file observed by `emitEmitHelpers`,
as booleans (`node.flags & NodeFlags.HasClassExtends` etc.). -/
structure SrcFileFlags where
  hasClassExtends : Bool
  hasDecorators : Bool
  hasParamDecorators : Bool
  hasAsyncFunctions : Bool
  deriving DecidableEq, Repr

/-- The per-file "helper already emitted" flags
(`extendsEmitted` / `decorateEmitted` / `paramEmitted` / `awaiterEmitted`). -/
structure HelperState where
  extendsEmitted : Bool
  decorateEmitted : Bool
  paramEmitted : Bool
  awaiterEmitted : Bool
  deriving DecidableEq, Repr

/-- All four flags cleared — the state after the reset block at the end
of `doPrint` (and the initial state of a fresh file printer). -/
def HelperState.cleared : HelperState :=
  { extendsEmitted := false, decorateEmitted := false,
    paramEmitted := false, awaiterEmitted := false }

/-- One item of helper-level output: a helper text blob (`writeLines` of
the corresponding template), the trailing `writeLine()`, or the body of
the `i`-th source file (everything the pass emits for that file after
its helpers). -/
inductive HelperOut where
  | extendsHelper
  | decorateHelper
  | metadataHelper
  | paramHelper
  | awaiterHelper
  | newline
  | fileBody (i : Nat)
  deriving DecidableEq, Repr

/-- `emitEmitHelpers(node)`: under `!compilerOptions.noEmitHelpers`,
emit each of the four helper templates when the file's flag bit is set
and the helper was not already emitted for this output file; `__extends`
additionally requires a pre-ES6 target, and `__decorate` drags
`__metadata` along when `emitDecoratorMetadata` is set. A trailing
`writeLine()` follows when anything was emitted. Returns the output, the
updated flags and the `helpersEmitted` result. -/
def emitEmitHelpers (opts : CompilerOptions) (node : SrcFileFlags)
    (st : HelperState) : List HelperOut × HelperState × Bool :=
  if opts.noEmitHelpers then ([], st, false)
  else
    let p₁ : List HelperOut × HelperState × Bool :=
      if opts.targetBelowES6 && (!st.extendsEmitted && node.hasClassExtends) then
        ([.extendsHelper], { st with extendsEmitted := true }, true)
      else ([], st, false)
    let (o₁, st₁, h₁) := p₁
    let p₂ : List HelperOut × HelperState × Bool :=
      if !st₁.decorateEmitted && node.hasDecorators then
        ([.decorateHelper] ++ (if opts.emitDecoratorMetadata then [.metadataHelper] else []),
          { st₁ with decorateEmitted := true }, true)
      else ([], st₁, h₁)
    let (o₂, st₂, h₂) := p₂
    let p₃ : List HelperOut × HelperState × Bool :=
      if !st₂.paramEmitted && node.hasParamDecorators then
        ([.paramHelper], { st₂ with paramEmitted := true }, true)
      else ([], st₂, h₂)
    let (o₃, st₃, h₃) := p₃
    let p₄ : List HelperOut × HelperState × Bool :=
      if !st₃.awaiterEmitted && node.hasAsyncFunctions then
        ([.awaiterHelper], { st₃ with awaiterEmitted := true }, true)
      else ([], st₃, h₃)
    let (o₄, st₄, h₄) := p₄
    (o₁ ++ o₂ ++ o₃ ++ o₄ ++ (if h₄ then [.newline] else []), st₄, h₄)

/-- `forEach(sourceFiles, emitEmitHelpers)` — the bundled-emit loop at
the start of `doPrint`. -/
def emitHelpersForFiles (opts : CompilerOptions) :
    List SrcFileFlags → HelperState → List HelperOut × HelperState
  | [], st => ([], st)
  | f :: fs, st =>
    let (o, st', _) := emitEmitHelpers opts f st
    let (o', st'') := emitHelpersForFiles opts fs st'
    (o ++ o', st'')

/-- `doPrint` for a bundled emit, at helper granularity: when
`isBundledEmit && moduleKind`, emit the helpers of every source file up
front, then print the transformed file bodies; the reset block at the
end clears all four helper flags. -/
def doPrintBundle (opts : CompilerOptions) (files : List SrcFileFlags)
    (st : HelperState) : List HelperOut × HelperState :=
  let (helperOut, st₁) :=
    if opts.moduleKindSet then emitHelpersForFiles opts files st else ([], st)
  let _ := st₁
  (helperOut ++ (List.range files.length).map HelperOut.fileBody, HelperState.cleared)

/-- `doPrint` for an own-file emit, at helper granularity: the single
source file's body is emitted by `emitSourceFile`, which (when the
transformer set `NodeEmitFlags.EmitEmitHelpers` on the file) runs
`emitEmitHelpers` via `emitHelpers` before the statement list; the reset
block at the end of `doPrint` clears all four helper flags. -/
def doPrintSingle (opts : CompilerOptions) (emitEmitHelpersFlag : Bool)
    (f : SrcFileFlags) (st : HelperState) : List HelperOut × HelperState :=
  let (o, st₁, _) :=
    if emitEmitHelpersFlag then emitEmitHelpers opts f st else ([], st, false)
  let _ := st₁
  (o ++ [HelperOut.fileBody 0], HelperState.cleared)

/-! ## Property/element access emission and constant folding -/

/-- The observables of a JavaScript number returned by
`resolver.getConstantValue`: its `String(v)` rendering and the result of
`isFinite(v) && Math.floor(v) === v` (the "constant enum value is
integer" test). Floating-point representation itself is not modelled;
only these two observables are consumed by the printer. -/
structure JsNum where
  str : String
  isIntegerValue : Bool
  deriving DecidableEq, Repr

/-- The source-position collaborators consumed by the layout heuristics
(`rangeEndIsOnSameLineAsRangeStart` and friends live outside `src/`). -/
structure LineEnv where
  rangeEndIsOnSameLineAsRangeStart : PNode → PNode → Bool
  rangeIsOnSingleLine : PNode → Bool
  rangeStartPositionsAreOnSameLine : PNode → PNode → Bool
  rangeEndPositionsAreOnSameLine : PNode → PNode → Bool

/-- The expression fragment exercised by the constant-folding claims.
Each constructor carries the node's `PNode` layout info; accesses carry
the value `resolver.getConstantValue` reports for them (`none` when the
resolver reports no constant). The modelled fragment contains no
synthesized parenthesized expressions, so `skipSynthesizedParentheses`
is the identity and is omitted. -/
inductive Expr where
  | numericLit (info : PNode) (text : String)
  | ident (info : PNode) (text : String)
  | propAccess (info : PNode) (expression : Expr) (dotTok : PNode)
      (nameInfo : PNode) (name : String) (constantValue : Option JsNum)
  | elemAccess (info : PNode) (expression : Expr) (argument : Expr)
      (constantValue : Option JsNum)

/-- The layout info of an expression node. -/
def Expr.info : Expr → PNode
  | .numericLit i _ => i
  | .ident i _ => i
  | .propAccess i _ _ _ _ _ => i
  | .elemAccess i _ _ _ => i

/-- `needsIndentation(parent, node1, node2)`: always break when the
second node asks for a new line; otherwise only between non-synthesized
nodes whose original ranges were on different lines. -/
def needsIndentation (env : LineEnv) (parent node1 node2 : PNode) : Bool :=
  if node2.startsOnNewLine = some true then true
  else
    !parent.synthesized && !node1.synthesized && !node2.synthesized &&
      !env.rangeEndIsOnSameLineAsRangeStart node1 node2

/-- `tryGetConstEnumValue(node)`: disabled under `isolatedModules`;
otherwise ask the resolver, which answers only for property and element
accesses. -/
def tryGetConstEnumValue (opts : CompilerOptions) (node : Expr) : Option JsNum :=
  if opts.isolatedModules then none
  else
    match node with
    | .propAccess _ _ _ _ _ cv => cv
    | .elemAccess _ _ _ cv => cv
    | _ => none

/-- The source text of a node (`getTextOfNode` /
`declarationNameToString`), reconstructed structurally for the modelled
fragment — used only for the text of the inline comment. -/
def getTextOfNodeE : Expr → String
  | .numericLit _ t => t
  | .ident _ t => t
  | .propAccess _ e _ _ n _ => getTextOfNodeE e ++ "." ++ n
  | .elemAccess _ e a _ => getTextOfNodeE e ++ "[" ++ getTextOfNodeE a ++ "]"

/-- `tryEmitConstantValue(node)`: when the resolver reports a constant,
write `String(constantValue)` and, unless `removeComments`, a second
write with the inline comment naming the accessed member; the returned
output replaces the whole access. `none` means the caller proceeds with
normal emission. -/
def tryEmitConstantValue (opts : CompilerOptions) (node : Expr) :
    Option (List OutAtom) :=
  match tryGetConstEnumValue opts node with
  | some constantValue =>
    let propertyName :=
      match node with
      | .propAccess _ _ _ _ n _ => n
      | .elemAccess _ _ a _ => getTextOfNodeE a
      | _ => ""
    some ([.text constantValue.str] ++
      (if !opts.removeComments then [.text (" /* " ++ propertyName ++ " */")] else []))
  | none => none

/-- `needsDotDotForPropertyAccess(expression)`: a numeric-literal target
needs the extra dot exactly when its literal text contains no `.`
(`text.indexOf(".") < 0`); any other target needs it exactly when its
constant enum value is a finite integer (`isFinite` handles the
`undefined` case). -/
def needsDotDotForPropertyAccess (opts : CompilerOptions) (expression : Expr) : Bool :=
  match expression with
  | .numericLit _ text => !text.data.contains '.'
  | _ =>
    match tryGetConstEnumValue opts expression with
    | some constantValue => constantValue.isIntegerValue
    | none => false

/-- `increaseIndentIf(value)` with no `valueToWriteWhenNotIndenting`:
`increaseIndent(); writeLine()` when the flag is set. -/
def increaseIndentIf (value : Bool) : List OutAtom :=
  if value then [.indentInc, .newline] else []

/-- `decreaseIndentIf(value1, value2)`. -/
def decreaseIndentIf (value1 value2 : Bool) : List OutAtom :=
  (if value1 then [OutAtom.indentDec] else []) ++
    (if value2 then [OutAtom.indentDec] else [])

/-- The expression emitter for the modelled fragment (the relevant arms
of `emitExpressionWorker`, with substitution and notification hooks
disabled): literals and identifiers write their text;
`emitPropertyAccessExpression` and `emitElementAccessExpression` first
try `tryEmitConstantValue` and otherwise emit target, separator and
member with the `..` and indentation logic of the source. -/
def emitExpressionE (opts : CompilerOptions) (env : LineEnv) : Expr → List OutAtom
  | .numericLit _ t => [.text t]
  | .ident _ t => [.text t]
  | .propAccess info expression dotTok nameInfo name cv =>
    match tryEmitConstantValue opts (.propAccess info expression dotTok nameInfo name cv) with
    | some out => out
    | none =>
      let indentBeforeDot := needsIndentation env info expression.info dotTok
      let indentAfterDot := needsIndentation env info dotTok nameInfo
      let shouldEmitDotDot :=
        !indentBeforeDot && needsDotDotForPropertyAccess opts expression
      emitExpressionE opts env expression ++
        increaseIndentIf indentBeforeDot ++
        [.text (if shouldEmitDotDot then ".." else ".")] ++
        increaseIndentIf indentAfterDot ++
        [.text name] ++
        decreaseIndentIf indentBeforeDot indentAfterDot
  | .elemAccess info expression argument cv =>
    match tryEmitConstantValue opts (.elemAccess info expression argument cv) with
    | some out => out
    | none =>
      emitExpressionE opts env expression ++
        [.text "["] ++ emitExpressionE opts env argument ++ [.text "]"]

/-! ## List/sequence emission -/

namespace ListFormat

/-- `ListFormat` bits, as in the `const enum` at the end of the file. -/
def SingleLine : Nat := 0
def NotDelimited : Nat := 0
def MultiLine : Nat := 1 <<< 0
def PreserveLines : Nat := 1 <<< 1
def LinesMask : Nat := SingleLine ||| MultiLine ||| PreserveLines
def BarDelimited : Nat := 1 <<< 2
def AmpersandDelimited : Nat := 1 <<< 3
def CommaDelimited : Nat := 1 <<< 4
def DelimitersMask : Nat := BarDelimited ||| AmpersandDelimited ||| CommaDelimited
def AllowTrailingComma : Nat := 1 <<< 5
def Indented : Nat := 1 <<< 6
def SpaceBetweenBraces : Nat := 1 <<< 7
def SpaceBetweenSiblings : Nat := 1 <<< 8
def Braces : Nat := 1 <<< 9
def Parenthesis : Nat := 1 <<< 10
def AngleBrackets : Nat := 1 <<< 11
def SquareBrackets : Nat := 1 <<< 12
def BracketsMask : Nat := Braces ||| Parenthesis ||| AngleBrackets ||| SquareBrackets
def OptionalIfUndefined : Nat := 1 <<< 13
def OptionalIfEmpty : Nat := 1 <<< 14
def Optional : Nat := OptionalIfUndefined ||| OptionalIfEmpty
def PreferNewLine : Nat := 1 <<< 15
def NoTrailingNewLine : Nat := 1 <<< 16

end ListFormat

/-- `createDelimiterMap` / `getDelimiter`: the delimiter string for the
format's delimiter bits (indexing with any other bit combination is
`undefined` in the source and unreachable from the preset formats; the
embedding returns `""` there). -/
def getDelimiter (format : Nat) : String :=
  let d := format &&& ListFormat.DelimitersMask
  if d = ListFormat.NotDelimited then ""
  else if d = ListFormat.CommaDelimited then ","
  else if d = ListFormat.BarDelimited then " |"
  else if d = ListFormat.AmpersandDelimited then " &"
  else ""

/-- `createBracketsMap` / `getOpeningBracket`. -/
def getOpeningBracket (format : Nat) : String :=
  let b := format &&& ListFormat.BracketsMask
  if b = ListFormat.Braces then "\x7b"
  else if b = ListFormat.Parenthesis then "("
  else if b = ListFormat.AngleBrackets then "<"
  else if b = ListFormat.SquareBrackets then "["
  else ""

/-- `createBracketsMap` / `getClosingBracket`. -/
def getClosingBracket (format : Nat) : String :=
  let b := format &&& ListFormat.BracketsMask
  if b = ListFormat.Braces then "\x7d"
  else if b = ListFormat.Parenthesis then ")"
  else if b = ListFormat.AngleBrackets then ">"
  else if b = ListFormat.SquareBrackets then "]"
  else ""

/-- A child node of a list, as consumed by the layout heuristics and the
comment collaborator: its layout info and the leading-comment output the
comment writer produces for it
(`emitLeadingComments(child, getTrailingCommentsOfPosition(child.pos))`). -/
structure LChild where
  info : PNode
  leadingCommentAtoms : List OutAtom

/-- A `NodeArray`: the ordered children plus the
`hasTrailingComma` flag. -/
structure NodeArrayM where
  elems : List LChild
  hasTrailingComma : Bool

/-- `synthesizedNodeStartsOnNewLine(node, format)`: a synthesized node
consults its explicit hint, defaulting to the `PreferNewLine` bit when
the hint is absent; a non-synthesized node uses the `PreferNewLine` bit. -/
def synthesizedNodeStartsOnNewLine (node : PNode) (format : Nat) : Bool :=
  if node.synthesized then
    match node.startsOnNewLine with
    | none => (format &&& ListFormat.PreferNewLine) ≠ 0
    | some b => b
  else (format &&& ListFormat.PreferNewLine) ≠ 0

/-- `shouldWriteLeadingLineTerminator(parentNode, children, format)`. -/
def shouldWriteLeadingLineTerminator (env : LineEnv) (parentNode : PNode)
    (children : NodeArrayM) (format : Nat) : Bool :=
  if (format &&& ListFormat.MultiLine) ≠ 0 then true
  else if (format &&& ListFormat.PreserveLines) ≠ 0 then
    if (format &&& ListFormat.PreferNewLine) ≠ 0 then true
    else
      match children.elems.head? with
      | none => !env.rangeIsOnSingleLine parentNode
      | some firstChild =>
        if parentNode.posIsSynthesized || firstChild.info.synthesized then
          synthesizedNodeStartsOnNewLine firstChild.info format
        else !env.rangeStartPositionsAreOnSameLine parentNode firstChild.info
  else false

/-- `shouldWriteSeparatingLineTerminator(previousNode, nextNode, format)`.
The first two arguments are `Option`s because the source compares them
against `undefined`. -/
def shouldWriteSeparatingLineTerminator (env : LineEnv)
    (previousNode nextNode : Option PNode) (format : Nat) : Bool :=
  if (format &&& ListFormat.MultiLine) ≠ 0 then true
  else if (format &&& ListFormat.PreserveLines) ≠ 0 then
    match previousNode, nextNode with
    | none, _ => false
    | _, none => false
    | some p, some n =>
      if p.synthesized || n.synthesized then
        synthesizedNodeStartsOnNewLine p format || synthesizedNodeStartsOnNewLine n format
      else !env.rangeEndIsOnSameLineAsRangeStart p n
  else
    match nextNode with
    | some n => n.startsOnNewLine = some true
    | none => false

/-- `shouldWriteClosingLineTerminator(parentNode, children, format)`. -/
def shouldWriteClosingLineTerminator (env : LineEnv) (parentNode : PNode)
    (children : NodeArrayM) (format : Nat) : Bool :=
  if (format &&& ListFormat.MultiLine) ≠ 0 then
    (format &&& ListFormat.NoTrailingNewLine) = 0
  else if (format &&& ListFormat.PreserveLines) ≠ 0 then
    if (format &&& ListFormat.PreferNewLine) ≠ 0 then true
    else
      match children.elems.getLast? with
      | none => !env.rangeIsOnSingleLine parentNode
      | some lastChild =>
        if parentNode.posIsSynthesized || lastChild.info.synthesized then
          synthesizedNodeStartsOnNewLine lastChild.info format
        else !env.rangeEndPositionsAreOnSameLine parentNode lastChild.info
  else false

/-- The child loop of `emitNodeList`, carrying `previousSibling` and
`shouldEmitInterveningComments`; `shouldDecreaseIndentAfterEmit` is
local to each iteration. -/
def emitNodeListLoop (emitChild : LChild → List OutAtom) (env : LineEnv)
    (format : Nat) (delimiter : String) :
    List LChild → Option LChild → Bool → List OutAtom
  | [], _, _ => []
  | child :: rest, previousSibling, shouldEmitInterveningComments =>
    let (sepOut, sEIC₁, shouldDecreaseIndentAfterEmit) :=
      match previousSibling with
      | none => (([] : List OutAtom), shouldEmitInterveningComments, false)
      | some prev =>
        let d : List OutAtom := [.text delimiter]
        if shouldWriteSeparatingLineTerminator env (some prev.info) (some child.info) format then
          if (format &&& (ListFormat.LinesMask ||| ListFormat.Indented)) = ListFormat.SingleLine then
            (d ++ [OutAtom.indentInc, OutAtom.newline], false, true)
          else (d ++ [OutAtom.newline], false, false)
        else if (format &&& ListFormat.SpaceBetweenSiblings) ≠ 0 then
          (d ++ [OutAtom.text " "], shouldEmitInterveningComments, false)
        else (d, shouldEmitInterveningComments, false)
    let commentOut := if sEIC₁ then child.leadingCommentAtoms else []
    sepOut ++ commentOut ++ emitChild child ++
      (if shouldDecreaseIndentAfterEmit then [OutAtom.indentDec] else []) ++
      emitNodeListLoop emitChild env format delimiter rest (some child) true

/-- `emitNodeList(emit, parentNode, children, format, start, count)`. -/
def emitNodeList (emitChild : LChild → List OutAtom) (env : LineEnv)
    (parentNode : PNode) (children : Option NodeArrayM) (format : Nat)
    (start : Nat) (count : Nat) : List OutAtom :=
  let isUndefined := children.isNone
  if isUndefined && (format &&& ListFormat.OptionalIfUndefined) ≠ 0 then []
  else
    let len := (children.map (fun c => c.elems.length)).getD 0
    let isEmpty := isUndefined || len = 0 || decide (start ≥ len) || count = 0
    if isEmpty && (format &&& ListFormat.OptionalIfEmpty) ≠ 0 then []
    else
      (if (format &&& ListFormat.BracketsMask) ≠ 0 then [OutAtom.text (getOpeningBracket format)] else []) ++
      (if isEmpty then
        (if (format &&& ListFormat.MultiLine) ≠ 0 then [OutAtom.newline]
         else if (format &&& ListFormat.SpaceBetweenBraces) ≠ 0 then [OutAtom.text " "]
         else [])
      else
        match children with
        | none => []
        | some childArr =>
          let (lead, sEIC₀) :=
            if shouldWriteLeadingLineTerminator env parentNode childArr format then
              ([OutAtom.newline], false)
            else if (format &&& ListFormat.SpaceBetweenBraces) ≠ 0 then
              ([OutAtom.text " "], true)
            else ([], true)
          let slice := (childArr.elems.drop start).take count
          let hasTrailingComma :=
            (format &&& ListFormat.AllowTrailingComma) ≠ 0 && childArr.hasTrailingComma
          lead ++
            (if (format &&& ListFormat.Indented) ≠ 0 then [OutAtom.indentInc] else []) ++
            emitNodeListLoop emitChild env format (getDelimiter format) slice none sEIC₀ ++
            (if (format &&& ListFormat.CommaDelimited) ≠ 0 && hasTrailingComma then [OutAtom.text ","] else []) ++
            (if (format &&& ListFormat.Indented) ≠ 0 then [OutAtom.indentDec] else []) ++
            (if shouldWriteClosingLineTerminator env parentNode childArr format then [OutAtom.newline]
             else if (format &&& ListFormat.SpaceBetweenBraces) ≠ 0 then [OutAtom.text " "]
             else [])) ++
      (if (format &&& ListFormat.BracketsMask) ≠ 0 then [OutAtom.text (getClosingBracket format)] else [])

/-! ## Substitution hook -/

/-- A node as seen by the substitution machinery: only its identity
matters (`node` / `substitute` are compared by reference, and the emit
directives live in an identity-keyed side table). -/
structure SubNode where
  id : Nat
  deriving DecidableEq, Repr

/-- Modelled from the spec: `NodeEmitFlags` is declared in the
collaborator type table (outside `src/`); the spec only requires a
designated "no substitution" flag bit, so one bit is fixed here. -/
def NodeEmitFlags.NoSubstitution : Nat := 1

/-- The identity-keyed side table of per-node emit directives
(`getNodeEmitFlags` / `setNodeEmitFlags` of the transform context). -/
def FlagsTable := List (Nat × Nat)

/-- `getNodeEmitFlags(node)`: absent entries read as no flags. -/
def getNodeEmitFlags (tbl : FlagsTable) (n : SubNode) : Nat :=
  (List.lookup n.id tbl).getD 0

/-- `setNodeEmitFlags(node, flags)`. -/
def setNodeEmitFlags (tbl : FlagsTable) (n : SubNode) (flags : Nat) : FlagsTable :=
  (n.id, flags) :: tbl

/-- `tryEmitSubstitute(node, substitution)`: when a hook is installed
and the node does not carry `NodeEmitFlags.NoSubstitution`, apply the
hook; if it returns a different node, set `NoSubstitution` on the
substitute, emit the substitute through `emitWorker`, and report `true`
(the caller then skips the original node entirely). The abstract
`emitWorker` models the kind dispatcher. -/
def tryEmitSubstitute (substitution : Option (SubNode → SubNode))
    (emitWorker : SubNode → FlagsTable → List OutAtom × FlagsTable)
    (n : SubNode) (tbl : FlagsTable) : Bool × List OutAtom × FlagsTable :=
  match substitution with
  | some subF =>
    if (getNodeEmitFlags tbl n &&& NodeEmitFlags.NoSubstitution) = 0 then
      let substitute := subF n
      if substitute ≠ n then
        let tbl₁ := setNodeEmitFlags tbl substitute
          (NodeEmitFlags.NoSubstitution ||| getNodeEmitFlags tbl substitute)
        let (out, tbl₂) := emitWorker substitute tbl₁
        (true, out, tbl₂)
      else (false, [], tbl)
    else (false, [], tbl)
  | none => (false, [], tbl)

/-- The head of `emitExpressionWorker`: consult the substitution hook
first when enabled, otherwise dispatch on the node's kind. -/
def emitExpressionWorkerHead
    (isExpressionSubstitutionEnabled : SubNode → Bool)
    (expressionSubstitution : Option (SubNode → SubNode))
    (emitWorker : SubNode → FlagsTable → List OutAtom × FlagsTable)
    (dispatch : SubNode → FlagsTable → List OutAtom × FlagsTable)
    (n : SubNode) (tbl : FlagsTable) : List OutAtom × FlagsTable :=
  if isExpressionSubstitutionEnabled n then
    match tryEmitSubstitute expressionSubstitution emitWorker n tbl with
    | (true, out, tbl') => (out, tbl')
    | (false, _, _) => dispatch n tbl
  else dispatch n tbl

/-! ## The dispatch wrapper -/

/-- The trace of collaborator calls made by the dispatch wrapper:
comment emission, the paired sourcemap marks (`emitStart` / `emitEnd`,
carrying the node's identity) and sink output produced by the worker. -/
inductive TraceEv where
  | comment (s : String)
  | startMark (id : Nat)
  | endMark (id : Nat)
  | sink (a : OutAtom)
  deriving DecidableEq, Repr

/-- The comment collaborator queries used by the wrapper
(`getLeadingComments` / `getTrailingComments` with the skip predicate
already applied). -/
structure CommentEnv where
  getLeadingComments : Nat → List String
  getTrailingComments : Nat → List String

/-- `emitNodeWithWorker(node, emitWorker)`: for a non-null node, query
leading and trailing comments, emit the leading comments, bracket the
kind-specific worker between `emitStart` and `emitEnd`, then emit the
trailing comments. -/
def emitNodeWithWorker (env : CommentEnv) (emitWorker : Nat → List TraceEv)
    (node : Option Nat) : List TraceEv :=
  match node with
  | none => []
  | some n =>
    let leadingComments := env.getLeadingComments n
    let trailingComments := env.getTrailingComments n
    leadingComments.map TraceEv.comment ++
      [TraceEv.startMark n] ++
      emitWorker n ++
      [TraceEv.endMark n] ++
      trailingComments.map TraceEv.comment

/-! ## Shared lemmas: name resolver -/

lemma string_eq_empty_of_length (s : String) (h : s.length = 0) : s = "" := by
  cases s with
  | mk data =>
    have hd : data = [] := List.length_eq_zero.mp (by simpa [String.length] using h)
    rw [hd]

lemma append_ne_empty_left (a b : String) (ha : a ≠ "") : a ++ b ≠ "" := by
  intro h
  have hlen := congrArg String.length h
  rw [String.length_append] at hlen
  have ha2 : a.length = 0 := by
    have : ("" : String).length = 0 := rfl
    omega
  exact ha (string_eq_empty_of_length a ha2)

lemma append_ne_empty_right (a b : String) (hb : b ≠ "") : a ++ b ≠ "" := by
  intro h
  have hlen := congrArg String.length h
  rw [String.length_append] at hlen
  have hb2 : b.length = 0 := by
    have : ("" : String).length = 0 := rfl
    omega
  exact hb (string_eq_empty_of_length b hb2)

lemma tempNameForCount_ne_empty (count : Nat) : tempNameForCount count ≠ "" := by
  unfold tempNameForCount
  split <;> exact append_ne_empty_left _ _ (by decide)

/-- Names returned by the `makeTempVariableName` counter loop are
nonempty and the loop never touches the memo table. -/
lemma makeTempVariableNameLoop_spec (env : NameGenEnv) :
    ∀ (fuel : Nat) (st : NameGenState) (r : String) (st' : NameGenState),
      makeTempVariableNameLoop env fuel st = some (r, st') →
      r ≠ "" ∧ st'.nodeToGeneratedName = st.nodeToGeneratedName := by
  intro fuel
  induction fuel with
  | zero => intro st r st' h; cases h
  | succ n ih =>
    intro st r st' h
    rw [makeTempVariableNameLoop] at h
    dsimp only at h
    split at h
    · split at h
      · cases h
        exact ⟨tempNameForCount_ne_empty _, rfl⟩
      · have hh := ih _ _ _ h
        exact ⟨hh.1, hh.2⟩
    · have hh := ih _ _ _ h
      exact ⟨hh.1, hh.2⟩

lemma makeTempVariableName_spec (env : NameGenEnv) (flags fuel : Nat)
    (st : NameGenState) (r : String) (st' : NameGenState)
    (h : makeTempVariableName env flags fuel st = some (r, st')) :
    r ≠ "" ∧ st'.nodeToGeneratedName = st.nodeToGeneratedName := by
  rw [makeTempVariableName] at h
  dsimp only at h
  split at h
  · split at h <;> split at h
    · cases h
      exact ⟨by decide, rfl⟩
    · have hh := makeTempVariableNameLoop_spec env _ _ _ _ h
      exact ⟨hh.1, hh.2⟩
    · cases h
      exact ⟨by decide, rfl⟩
    · have hh := makeTempVariableNameLoop_spec env _ _ _ _ h
      exact ⟨hh.1, hh.2⟩
  · have hh := makeTempVariableNameLoop_spec env _ _ _ _ h
    exact ⟨hh.1, hh.2⟩

lemma makeUniqueNameLoop_spec (env : NameGenEnv) (base : String) (hbase : base ≠ "") :
    ∀ (fuel i : Nat) (st : NameGenState) (r : String) (st' : NameGenState),
      makeUniqueNameLoop env base fuel i st = some (r, st') →
      r ≠ "" ∧ st'.nodeToGeneratedName = st.nodeToGeneratedName := by
  intro fuel
  induction fuel with
  | zero => intro i st r st' h; cases h
  | succ n ih =>
    intro i st r st' h
    rw [makeUniqueNameLoop] at h
    try dsimp only at h
    split at h
    · cases h
      exact ⟨append_ne_empty_left _ _ hbase, rfl⟩
    · have hh := ih _ _ _ _ h
      exact ⟨hh.1, hh.2⟩

lemma makeUniqueName_spec (env : NameGenEnv) (base : String) (fuel : Nat)
    (st : NameGenState) (r : String) (st' : NameGenState)
    (h : makeUniqueName env base fuel st = some (r, st')) :
    r ≠ "" ∧ st'.nodeToGeneratedName = st.nodeToGeneratedName := by
  rw [makeUniqueName] at h
  try dsimp only at h
  split at h
  case isTrue hu =>
    refine makeUniqueNameLoop_spec env base ?_ _ _ _ _ _ h
    intro hb
    rw [hb] at hu
    simp [lastCharIsUnderscore] at hu
  case isFalse hu =>
    exact makeUniqueNameLoop_spec env _ (append_ne_empty_right _ _ (by decide)) _ _ _ _ _ h

/-- Generated texts are nonempty and generation itself never writes the
memo table (the write happens in `getGeneratedIdentifier`). -/
lemma generateIdentifier_spec (env : NameGenEnv) (fuel : Nat) (node : PrNode)
    (st : NameGenState) (r : String) (st' : NameGenState)
    (h : generateIdentifier env fuel node st = some (r, st')) :
    r ≠ "" ∧ st'.nodeToGeneratedName = st.nodeToGeneratedName := by
  rw [generateIdentifier] at h
  rcases hk : node.autoGenerateKind with _ | k
  · rw [hk] at h; cases h
  · rw [hk] at h
    cases k with
    | auto => exact makeTempVariableName_spec env _ _ _ _ _ h
    | loop => exact makeTempVariableName_spec env _ _ _ _ _ h
    | unique => exact makeUniqueName_spec env _ _ _ _ _ h
    | node =>
      rw [generateNameForNode] at h
      rcases hk2 : (getSourceNodeForGeneratedName node).kind with t | ⟨gk, t⟩ | _ | _ | _ <;>
        rw [hk2] at h
      · exact makeUniqueName_spec env _ _ _ _ _ h
      · exact makeUniqueName_spec env _ _ _ _ _ h
      · exact makeUniqueName_spec env _ _ _ _ _ h
      · exact makeUniqueName_spec env _ _ _ _ _ h
      · exact makeTempVariableName_spec env _ _ _ _ _ h

/-- A nonempty memoized name is returned as-is, with no state change. -/
lemma getGeneratedIdentifier_hit (env : NameGenEnv) (fuel : Nat) (n : PrNode)
    (st : NameGenState) (id : Nat) (t : String)
    (hid : getNodeIdForGeneratedIdentifier n = some id)
    (hl : st.nodeToGeneratedName.lookup id = some t) (hne : t ≠ "") :
    getGeneratedIdentifier env fuel n st = (some t, st) := by
  rw [getGeneratedIdentifier, hid]
  dsimp only
  rw [hl]
  simp [hne]

/-- A successful resolution leaves a nonempty entry for the node's memo
key in the table. -/
lemma getGeneratedIdentifier_post (env : NameGenEnv) (fuel : Nat) (n : PrNode)
    (st : NameGenState) (r : String) (st₁ : NameGenState)
    (h : getGeneratedIdentifier env fuel n st = (some r, st₁)) :
    r ≠ "" ∧ ∃ id, getNodeIdForGeneratedIdentifier n = some id ∧
      st₁.nodeToGeneratedName.lookup id = some r := by
  rw [getGeneratedIdentifier] at h
  rcases hid : getNodeIdForGeneratedIdentifier n with _ | id
  · rw [hid] at h; cases h
  · rw [hid] at h
    dsimp only at h
    rcases hl : st.nodeToGeneratedName.lookup id with _ | cached
    · rw [hl] at h
      try dsimp only at h
      rcases hg : generateIdentifier env fuel n st with _ | ⟨t2, st2⟩
      · rw [hg] at h; cases h
      · rw [hg] at h
        try dsimp only at h
        obtain ⟨hne, _⟩ := generateIdentifier_spec env fuel n st t2 st2 hg
        cases h
        refine ⟨hne, id, rfl, ?_⟩
        simp [unescapeIdentifier, List.lookup]
    · rw [hl] at h
      try dsimp only at h
      by_cases hc : cached = ""
      · rw [if_pos hc] at h
        rcases hg : generateIdentifier env fuel n st with _ | ⟨t2, st2⟩
        · rw [hg] at h; cases h
        · rw [hg] at h
          try dsimp only at h
          obtain ⟨hne, _⟩ := generateIdentifier_spec env fuel n st t2 st2 hg
          cases h
          refine ⟨hne, id, rfl, ?_⟩
          simp [unescapeIdentifier, List.lookup]
      · rw [if_neg hc] at h
        cases h
        exact ⟨hc, id, rfl, hl⟩

/-- Resolving any node preserves every nonempty memo entry: the memo
write targets only a key whose entry was absent or empty. -/
lemma getGeneratedIdentifier_preserve (env : NameGenEnv) (fuel : Nat) (m : PrNode)
    (st : NameGenState) (res : Option String) (st₁ : NameGenState)
    (h : getGeneratedIdentifier env fuel m st = (res, st₁)) (id : Nat) (t : String)
    (ht : t ≠ "") (hl : st.nodeToGeneratedName.lookup id = some t) :
    st₁.nodeToGeneratedName.lookup id = some t := by
  rw [getGeneratedIdentifier] at h
  rcases hid : getNodeIdForGeneratedIdentifier m with _ | id2
  · rw [hid] at h; cases h; exact hl
  · rw [hid] at h
    dsimp only at h
    rcases hl2 : st.nodeToGeneratedName.lookup id2 with _ | cached
    · rw [hl2] at h
      try dsimp only at h
      rcases hg : generateIdentifier env fuel m st with _ | ⟨t2, st2⟩
      · rw [hg] at h; cases h; exact hl
      · rw [hg] at h
        try dsimp only at h
        obtain ⟨_, hmemo⟩ := generateIdentifier_spec env fuel m st t2 st2 hg
        cases h
        have hneq : id2 ≠ id := by
          intro hx
          rw [hx] at hl2
          rw [hl2] at hl
          cases hl
        have hbe : (id == id2) = false := beq_eq_false_iff_ne.mpr (Ne.symm hneq)
        simp [List.lookup, hbe, hmemo, hl]
    · rw [hl2] at h
      try dsimp only at h
      by_cases hc : cached = ""
      · rw [if_pos hc] at h
        rcases hg : generateIdentifier env fuel m st with _ | ⟨t2, st2⟩
        · rw [hg] at h; cases h; exact hl
        · rw [hg] at h
          try dsimp only at h
          obtain ⟨_, hmemo⟩ := generateIdentifier_spec env fuel m st t2 st2 hg
          cases h
          have hneq : id2 ≠ id := by
            intro hx
            rw [hx] at hl2
            rw [hl2] at hl
            cases hl
            exact ht hc
          have hbe : (id == id2) = false := beq_eq_false_iff_ne.mpr (Ne.symm hneq)
          simp [List.lookup, hbe, hmemo, hl]
      · rw [if_neg hc] at h
        cases h
        exact hl

/-- `resolveAll` preserves every nonempty memo entry. -/
lemma resolveAll_preserve (env : NameGenEnv) (fuel : Nat) :
    ∀ (ns : List PrNode) (st : NameGenState) (rs : List (Option String))
      (st₂ : NameGenState), resolveAll env fuel ns st = (rs, st₂) →
      ∀ (id : Nat) (t : String), t ≠ "" →
        st.nodeToGeneratedName.lookup id = some t →
        st₂.nodeToGeneratedName.lookup id = some t := by
  intro ns
  induction ns with
  | nil =>
    intro st rs st₂ h id t ht hl
    rw [resolveAll] at h
    cases h
    exact hl
  | cons m ms ih =>
    intro st rs st₂ h id t ht hl
    rw [resolveAll] at h
    rcases h1 : getGeneratedIdentifier env fuel m st with ⟨r1, stA⟩
    rw [h1] at h
    dsimp only at h
    rcases h2 : resolveAll env fuel ms stA with ⟨rsB, stB⟩
    rw [h2] at h
    dsimp only at h
    cases h
    exact ih stA rsB st₂ h2 id t ht
      (getGeneratedIdentifier_preserve env fuel m st r1 stA h1 id t ht hl)

/-! ## Shared lemmas: helper injection -/

/-- `emitEmitHelpers` only reads `noEmitHelpers`, `emitDecoratorMetadata`
and the language target from the options. -/
lemma emitEmitHelpers_opts_irrel (ne md t6 rm iso mk rm2 iso2 mk2 : Bool)
    (f : SrcFileFlags) (st : HelperState) :
    emitEmitHelpers ⟨ne, md, rm, iso, t6, mk⟩ f st =
      emitEmitHelpers ⟨ne, md, rm2, iso2, t6, mk2⟩ f st := rfl

lemma emitEmitHelpers_step_core (ne md t6 a b c d e1 e2 e3 e4 : Bool) :
    let opts : CompilerOptions := ⟨ne, md, false, false, t6, false⟩
    let f : SrcFileFlags := ⟨a, b, c, d⟩
    let st : HelperState := ⟨e1, e2, e3, e4⟩
    ((emitEmitHelpers opts f st).1.count .extendsHelper =
        (if (emitEmitHelpers opts f st).2.1.extendsEmitted && !st.extendsEmitted then 1 else 0) ∧
      (emitEmitHelpers opts f st).2.1.extendsEmitted =
        (st.extendsEmitted || (!opts.noEmitHelpers && opts.targetBelowES6 && f.hasClassExtends))) ∧
    ((emitEmitHelpers opts f st).1.count .decorateHelper =
        (if (emitEmitHelpers opts f st).2.1.decorateEmitted && !st.decorateEmitted then 1 else 0) ∧
      (emitEmitHelpers opts f st).2.1.decorateEmitted =
        (st.decorateEmitted || (!opts.noEmitHelpers && f.hasDecorators))) ∧
    ((emitEmitHelpers opts f st).1.count .paramHelper =
        (if (emitEmitHelpers opts f st).2.1.paramEmitted && !st.paramEmitted then 1 else 0) ∧
      (emitEmitHelpers opts f st).2.1.paramEmitted =
        (st.paramEmitted || (!opts.noEmitHelpers && f.hasParamDecorators))) ∧
    ((emitEmitHelpers opts f st).1.count .awaiterHelper =
        (if (emitEmitHelpers opts f st).2.1.awaiterEmitted && !st.awaiterEmitted then 1 else 0) ∧
      (emitEmitHelpers opts f st).2.1.awaiterEmitted =
        (st.awaiterEmitted || (!opts.noEmitHelpers && f.hasAsyncFunctions))) := by
  revert ne md t6 a b c d e1 e2 e3 e4
  decide

/-- Characterization of one `emitEmitHelpers` step, for each of the four
helper kinds: the helper text appears exactly when its already-emitted
flag flips, and the flag after the call is the old flag or-ed with the
file's need. -/
lemma emitEmitHelpers_step (opts : CompilerOptions) (f : SrcFileFlags) (st : HelperState) :
    ((emitEmitHelpers opts f st).1.count .extendsHelper =
        (if (emitEmitHelpers opts f st).2.1.extendsEmitted && !st.extendsEmitted then 1 else 0) ∧
      (emitEmitHelpers opts f st).2.1.extendsEmitted =
        (st.extendsEmitted || (!opts.noEmitHelpers && opts.targetBelowES6 && f.hasClassExtends))) ∧
    ((emitEmitHelpers opts f st).1.count .decorateHelper =
        (if (emitEmitHelpers opts f st).2.1.decorateEmitted && !st.decorateEmitted then 1 else 0) ∧
      (emitEmitHelpers opts f st).2.1.decorateEmitted =
        (st.decorateEmitted || (!opts.noEmitHelpers && f.hasDecorators))) ∧
    ((emitEmitHelpers opts f st).1.count .paramHelper =
        (if (emitEmitHelpers opts f st).2.1.paramEmitted && !st.paramEmitted then 1 else 0) ∧
      (emitEmitHelpers opts f st).2.1.paramEmitted =
        (st.paramEmitted || (!opts.noEmitHelpers && f.hasParamDecorators))) ∧
    ((emitEmitHelpers opts f st).1.count .awaiterHelper =
        (if (emitEmitHelpers opts f st).2.1.awaiterEmitted && !st.awaiterEmitted then 1 else 0) ∧
      (emitEmitHelpers opts f st).2.1.awaiterEmitted =
        (st.awaiterEmitted || (!opts.noEmitHelpers && f.hasAsyncFunctions))) := by
  obtain ⟨ne, md, rm, iso, t6, mk⟩ := opts
  obtain ⟨a, b, c, d⟩ := f
  obtain ⟨e1, e2, e3, e4⟩ := st
  have h := emitEmitHelpers_step_core ne md t6 a b c d e1 e2 e3 e4
  simp only at h
  rw [emitEmitHelpers_opts_irrel ne md t6 rm iso mk false false false]
  exact h

lemma emitHelpersForFiles_cons (opts : CompilerOptions) (f : SrcFileFlags)
    (fs : List SrcFileFlags) (st : HelperState) :
    emitHelpersForFiles opts (f :: fs) st =
      ((emitEmitHelpers opts f st).1 ++
        (emitHelpersForFiles opts fs (emitEmitHelpers opts f st).2.1).1,
       (emitHelpersForFiles opts fs (emitEmitHelpers opts f st).2.1).2) := by
  rcases h : emitEmitHelpers opts f st with ⟨o, st2, hh⟩
  simp [emitHelpersForFiles, h]

/-- The step behaviour of `emitEmitHelpers` for one helper kind, as used
by the pass-level inductions: `item` is the helper's output token,
`extract` its already-emitted flag, `guard` the per-file need. -/
def StepSpec (opts : CompilerOptions) (item : HelperOut)
    (extract : HelperState → Bool) (guard : SrcFileFlags → Bool) : Prop :=
  ∀ f st,
    (emitEmitHelpers opts f st).1.count item =
        (if extract (emitEmitHelpers opts f st).2.1 && !extract st then 1 else 0) ∧
    extract (emitEmitHelpers opts f st).2.1 = (extract st || guard f)

lemma stepSpec_extends (opts : CompilerOptions) :
    StepSpec opts .extendsHelper (fun s => s.extendsEmitted)
      (fun f => !opts.noEmitHelpers && opts.targetBelowES6 && f.hasClassExtends) :=
  fun f st => (emitEmitHelpers_step opts f st).1

lemma stepSpec_decorate (opts : CompilerOptions) :
    StepSpec opts .decorateHelper (fun s => s.decorateEmitted)
      (fun f => !opts.noEmitHelpers && f.hasDecorators) :=
  fun f st => (emitEmitHelpers_step opts f st).2.1

lemma stepSpec_param (opts : CompilerOptions) :
    StepSpec opts .paramHelper (fun s => s.paramEmitted)
      (fun f => !opts.noEmitHelpers && f.hasParamDecorators) :=
  fun f st => (emitEmitHelpers_step opts f st).2.2.1

lemma stepSpec_awaiter (opts : CompilerOptions) :
    StepSpec opts .awaiterHelper (fun s => s.awaiterEmitted)
      (fun f => !opts.noEmitHelpers && f.hasAsyncFunctions) :=
  fun f st => (emitEmitHelpers_step opts f st).2.2.2

lemma pass_mono (opts : CompilerOptions) (item : HelperOut)
    (extract : HelperState → Bool) (guard : SrcFileFlags → Bool)
    (h : StepSpec opts item extract guard) :
    ∀ (files : List SrcFileFlags) (st : HelperState), extract st = true →
      extract (emitHelpersForFiles opts files st).2 = true := by
  intro files
  induction files with
  | nil => intro st hst; simpa [emitHelpersForFiles]
  | cons f fs ih =>
    intro st hst
    rw [emitHelpersForFiles_cons]
    exact ih _ (by rw [(h f st).2, hst]; simp)

/-- Exact count of one helper's text along a whole pass: it appears
exactly when the pass flips the helper's flag — hence at most once. -/
lemma pass_count (opts : CompilerOptions) (item : HelperOut)
    (extract : HelperState → Bool) (guard : SrcFileFlags → Bool)
    (h : StepSpec opts item extract guard) :
    ∀ (files : List SrcFileFlags) (st : HelperState),
      (emitHelpersForFiles opts files st).1.count item =
        (if extract (emitHelpersForFiles opts files st).2 && !extract st then 1 else 0) := by
  intro files
  induction files with
  | nil => intro st; simp [emitHelpersForFiles]
  | cons f fs ih =>
    intro st
    rw [emitHelpersForFiles_cons]
    simp only [List.count_append]
    rw [(h f st).1, ih]
    rcases hA : extract st with _ | _
    · rcases hg : guard f with _ | _
      · have hB : extract (emitEmitHelpers opts f st).2.1 = false := by
          rw [(h f st).2, hA, hg]; rfl
        simp [hB]
      · have hB : extract (emitEmitHelpers opts f st).2.1 = true := by
          rw [(h f st).2, hA, hg]; rfl
        have hC := pass_mono opts item extract guard h fs _ hB
        simp [hB, hC]
    · have hB : extract (emitEmitHelpers opts f st).2.1 = true := by
        rw [(h f st).2, hA]; simp
      have hC := pass_mono opts item extract guard h fs _ hB
      simp [hB, hC]

lemma pass_extract_true (opts : CompilerOptions) (item : HelperOut)
    (extract : HelperState → Bool) (guard : SrcFileFlags → Bool)
    (h : StepSpec opts item extract guard) :
    ∀ (files : List SrcFileFlags) (st : HelperState) (f : SrcFileFlags),
      f ∈ files → guard f = true →
      extract (emitHelpersForFiles opts files st).2 = true := by
  intro files
  induction files with
  | nil => intro st f hf; intro _; cases hf
  | cons g gs ih =>
    intro st f hf hg
    rw [emitHelpersForFiles_cons]
    rcases List.mem_cons.mp hf with rfl | hmem
    · exact pass_mono opts item extract guard h gs _ (by rw [(h f st).2, hg]; simp)
    · exact ih _ f hmem hg

/-- When some file of the pass needs a helper and its flag starts clear,
the helper's text is in the pass output. -/
lemma pass_mem (opts : CompilerOptions) (item : HelperOut)
    (extract : HelperState → Bool) (guard : SrcFileFlags → Bool)
    (h : StepSpec opts item extract guard) :
    ∀ (files : List SrcFileFlags) (st : HelperState) (f : SrcFileFlags),
      f ∈ files → guard f = true → extract st = false →
      item ∈ (emitHelpersForFiles opts files st).1 := by
  intro files st f hf hg hst
  have hc := pass_count opts item extract guard h files st
  rw [pass_extract_true opts item extract guard h files st f hf hg, hst] at hc
  simp at hc
  exact List.count_pos_iff.mp (by rw [hc]; norm_num)

/-- A single `emitEmitHelpers` call emits the helper when the file needs
it and the flag is clear. -/
lemma emitEmitHelpers_mem (opts : CompilerOptions) (item : HelperOut)
    (extract : HelperState → Bool) (guard : SrcFileFlags → Bool)
    (h : StepSpec opts item extract guard) (f : SrcFileFlags) (st : HelperState)
    (hg : guard f = true) (hst : extract st = false) :
    item ∈ (emitEmitHelpers opts f st).1 := by
  have hc := (h f st).1
  rw [(h f st).2, hst, hg] at hc
  simp at hc
  exact List.count_pos_iff.mp (by rw [hc]; norm_num)

lemma count_fileBody_map (k : Nat) (item : HelperOut)
    (hitem : ∀ i, item ≠ HelperOut.fileBody i) :
    ((List.range k).map HelperOut.fileBody).count item = 0 := by
  refine List.count_eq_zero.mpr ?_
  intro hm
  rcases List.mem_map.mp hm with ⟨i, _, hi⟩
  exact hitem i hi.symm

/-! ## Claim C1 -/

/-- A file whose source text declares `_a` … `_z` and `_0` (the `_i` and
`_n` slots are skipped by the counter loop, so they are immaterial). -/
def c1Env : NameGenEnv :=
  { hasGlobalName := fun _ => false,
    currentFileIdentifiers :=
      ["_a", "_b", "_c", "_d", "_e", "_f", "_g", "_h", "_j", "_k", "_l", "_m",
       "_o", "_p", "_q", "_r", "_s", "_t", "_u", "_v", "_w", "_x", "_y", "_z", "_0"] }

/-- An Auto-strategy generated identifier (node id 1). -/
def c1AutoNode : PrNode := .mk 1 (.genIdent .auto "") none

/-- A Unique-strategy generated identifier with base text `_`
(node id 2) — e.g. a temp derived from a source identifier named `_`. -/
def c1UniqueNode : PrNode := .mk 2 (.genIdent .unique "_") none

/-- C1: the claim states that the N resolved texts of one file pass and
the M pre-existing lexical names are all pairwise distinct. The code
violates this: `makeTempVariableName` does not record its winners in
`generatedNameSet`, so an Auto-strategy temp that falls through to the
numeric tail of the sequence (here `_1`, after `_a`…`_z` and `_0` are
taken by the file) collides with a later `makeUniqueName` draw whose
base is `_` — both requests of this pass resolve to `_1`, although each
one individually passed the `isUniqueName` triple check. This
contradicts the code's own comments ("names generated by
makeTempVariableName and makeUniqueName will never conflict"). -/
theorem c1_temp_and_unique_names_collide :
    c1AutoNode.id ≠ c1UniqueNode.id ∧
    c1Env.hasGlobalName "_1" = false ∧
    c1Env.currentFileIdentifiers.contains "_1" = false ∧
    (resolveAll c1Env 100 [c1AutoNode, c1UniqueNode] NameGenState.initial).1 =
      [some "_1", some "_1"] := by decide

/-! ## Claim C2 -/

/-- C2: for every generated-identifier node, every reference within one
file pass resolves to the same text: the first resolution is memoized
under the node's identity (`getNodeIdForGeneratedIdentifier`), and any
later lookup in the same pass — after arbitrarily many other
resolutions `ns` — returns the memoized string unchanged (and changes no
state). -/
theorem c2_generated_identifier_memoized (env : NameGenEnv) (fuel fuel' : Nat)
    (n : PrNode) (st st₁ st₂ : NameGenState) (t : String) (ns : List PrNode)
    (rs : List (Option String))
    (h1 : getGeneratedIdentifier env fuel n st = (some t, st₁))
    (h2 : resolveAll env fuel ns st₁ = (rs, st₂)) :
    getGeneratedIdentifier env fuel' n st₂ = (some t, st₂) := by
  obtain ⟨hne, id, hid, hl⟩ := getGeneratedIdentifier_post env fuel n st t st₁ h1
  exact getGeneratedIdentifier_hit env fuel' n st₂ id t hid
    (resolveAll_preserve env fuel ns st₁ rs st₂ h2 id t hne hl) hne

/-- The trivial resolver environment used by the C2 witness. -/
def c2wEnv : NameGenEnv :=
  { hasGlobalName := fun _ => false, currentFileIdentifiers := [] }

def c2wNode : PrNode := .mk 1 (.genIdent .auto "") none

def c2wOther : PrNode := .mk 2 (.genIdent .unique "x") none

def c2wSt1 : NameGenState :=
  (getGeneratedIdentifier c2wEnv 10 c2wNode NameGenState.initial).2

def c2wSt2 : NameGenState := (resolveAll c2wEnv 10 [c2wOther] c2wSt1).2

theorem c2_generated_identifier_memoized_witness :
    getGeneratedIdentifier c2wEnv 20 c2wNode c2wSt2 = (some "_a", c2wSt2) :=
  c2_generated_identifier_memoized c2wEnv 10 20 c2wNode NameGenState.initial
    c2wSt1 c2wSt2 "_a" [c2wOther] (resolveAll c2wEnv 10 [c2wOther] c2wSt1).1
    (by decide) (by decide)

/-! ## Claim C8 -/

/-- C8 (amended): for the Loop strategy, `makeTempVariableName` returns
the literal `_i` when the `_i` preference bit is still clear and `_i`
passes the uniqueness check — setting the bit; in every other case it
draws directly from the Auto sequence, behaving exactly like an
Auto-strategy request (there is no intermediate dedicated-name tier: the
`_n` fallback in the code is only reachable for preference flags other
than `TempFlags._i`, which `generateIdentifier` never passes). -/
theorem c8_loop_strategy_amended (env : NameGenEnv) (fuel : Nat) (st : NameGenState) :
    ((st.tempFlags &&& TempFlags.flagI) = 0 → isUniqueName env st "_i" = true →
      makeTempVariableName env TempFlags.flagI fuel st =
        some ("_i", { st with tempFlags := st.tempFlags ||| TempFlags.flagI })) ∧
    (((st.tempFlags &&& TempFlags.flagI) ≠ 0 ∨ isUniqueName env st "_i" = false) →
      makeTempVariableName env TempFlags.flagI fuel st =
        makeTempVariableName env TempFlags.auto fuel st) := by
  constructor
  · intro hbit huni
    simp only [TempFlags.flagI] at hbit
    rw [makeTempVariableName]
    simp [hbit, huni, TempFlags.flagI]
  · intro hcase
    rw [makeTempVariableName, makeTempVariableName]
    rcases hcase with hbit | huni
    · simp [TempFlags.auto, hbit]
    · simp [TempFlags.auto, TempFlags.flagI, huni]

/-- A file whose source text contains only the identifier `_i`. -/
def c8CexEnv : NameGenEnv :=
  { hasGlobalName := fun _ => false, currentFileIdentifiers := ["_i"] }

/-- C8 counterexample: with only `_i` taken, the Loop strategy resolves
to `_a` — the first Auto-sequence name — even though the dedicated name
`_n` is free; so after `_i` the resolver does not fall back to a
dedicated numeric-suffix name before drawing from the Auto sequence,
contrary to the claim's "only if both are taken does it draw from the
Auto sequence". -/
theorem c8_loop_strategy_counterexample :
    (makeTempVariableName c8CexEnv TempFlags.flagI 100 NameGenState.initial).map
      Prod.fst = some "_a" ∧
    "_a" = tempNameForCount 0 ∧ "_a" ≠ "_i" ∧ "_a" ≠ "_n" ∧
    isUniqueName c8CexEnv NameGenState.initial "_n" = true := by decide

def c8wEnv : NameGenEnv :=
  { hasGlobalName := fun _ => false, currentFileIdentifiers := [] }

theorem c8_loop_strategy_amended_witness :
    makeTempVariableName c8wEnv TempFlags.flagI 100 NameGenState.initial =
      some ("_i", { NameGenState.initial with
        tempFlags := NameGenState.initial.tempFlags ||| TempFlags.flagI }) ∧
    makeTempVariableName c8CexEnv TempFlags.flagI 100 NameGenState.initial =
      makeTempVariableName c8CexEnv TempFlags.auto 100 NameGenState.initial :=
  ⟨(c8_loop_strategy_amended c8wEnv 100 NameGenState.initial).1 (by decide) (by decide),
   (c8_loop_strategy_amended c8CexEnv 100 NameGenState.initial).2 (Or.inr (by decide))⟩

/-! ## Claim C10 -/

/-- C10: for Node-strategy generated identifiers, the memo key is the id
of the source node reached by `getSourceNodeForGeneratedName` (the
`original` chain with the early stop at a distinct Node-strategy
identifier), not the referencing identifier's own id; consequently two
distinct identifier nodes tracing to the same source node resolve to
identical text within one file pass, even with arbitrary other
resolutions in between. -/
theorem c10_node_strategy_memo_key (env : NameGenEnv) (fuel fuel' : Nat)
    (n₁ n₂ : PrNode) (st st₁ st₂ : NameGenState) (t : String) (ns : List PrNode)
    (rs : List (Option String))
    (hk1 : n₁.autoGenerateKind = some .node)
    (hk2 : n₂.autoGenerateKind = some .node)
    (hsrc : (getSourceNodeForGeneratedName n₁).id = (getSourceNodeForGeneratedName n₂).id)
    (h1 : getGeneratedIdentifier env fuel n₁ st = (some t, st₁))
    (h2 : resolveAll env fuel ns st₁ = (rs, st₂)) :
    getNodeIdForGeneratedIdentifier n₁ =
      some (getSourceNodeForGeneratedName n₁).id ∧
    getGeneratedIdentifier env fuel' n₂ st₂ = (some t, st₂) := by
  have hid1 : getNodeIdForGeneratedIdentifier n₁ =
      some (getSourceNodeForGeneratedName n₁).id := by
    rw [getNodeIdForGeneratedIdentifier, hk1]
  have hid2 : getNodeIdForGeneratedIdentifier n₂ =
      some (getSourceNodeForGeneratedName n₁).id := by
    rw [getNodeIdForGeneratedIdentifier, hk2, hsrc]
  obtain ⟨hne, id, hid, hl⟩ := getGeneratedIdentifier_post env fuel n₁ st t st₁ h1
  rw [hid1] at hid
  cases hid
  exact ⟨hid1, getGeneratedIdentifier_hit env fuel' n₂ st₂ _ t hid2
    (resolveAll_preserve env fuel ns st₁ rs st₂ h2 _ t hne hl) hne⟩

def c10wSrc : PrNode := .mk 5 (.ident "x") none

def c10wN1 : PrNode := .mk 10 (.genIdent .node "") (some c10wSrc)

def c10wN2 : PrNode := .mk 11 (.genIdent .node "") (some c10wSrc)

def c10wSt1 : NameGenState :=
  (getGeneratedIdentifier c2wEnv 10 c10wN1 NameGenState.initial).2

theorem c10_node_strategy_memo_key_witness :
    getNodeIdForGeneratedIdentifier c10wN1 =
      some (getSourceNodeForGeneratedName c10wN1).id ∧
    getGeneratedIdentifier c2wEnv 20 c10wN2 c10wSt1 = (some "x_1", c10wSt1) :=
  c10_node_strategy_memo_key c2wEnv 10 20 c10wN1 c10wN2 NameGenState.initial
    c10wSt1 c10wSt1 "x_1" [] [] (by decide) (by decide) (by decide)
    (by decide) (by decide)

/-! ## Claim C3 -/

lemma doPrintBundle_decomp (opts : CompilerOptions) (files : List SrcFileFlags)
    (st : HelperState) (hmk : opts.moduleKindSet = true) :
    doPrintBundle opts files st =
      ((emitHelpersForFiles opts files st).1 ++
        (List.range files.length).map HelperOut.fileBody, HelperState.cleared) := by
  rcases hh : emitHelpersForFiles opts files st with ⟨o, s⟩
  simp [doPrintBundle, hmk, hh]

lemma doPrintBundle_reset (opts : CompilerOptions) (files : List SrcFileFlags)
    (st : HelperState) : (doPrintBundle opts files st).2 = HelperState.cleared := by
  by_cases hmk : opts.moduleKindSet
  · rcases hh : emitHelpersForFiles opts files st with ⟨o, s⟩
    simp [doPrintBundle, hmk, hh]
  · simp [doPrintBundle, hmk]

lemma doPrintSingle_eq (opts : CompilerOptions) (eh : Bool) (f : SrcFileFlags)
    (st : HelperState) :
    doPrintSingle opts eh f st =
      ((if eh then (emitEmitHelpers opts f st).1 else []) ++ [HelperOut.fileBody 0],
        HelperState.cleared) := by
  by_cases heh : eh
  · rcases hh : emitEmitHelpers opts f st with ⟨o, s, b⟩
    simp [doPrintSingle, heh, hh]
  · simp [doPrintSingle, heh]

lemma doPrintBundle_count_le_one (opts : CompilerOptions) (files : List SrcFileFlags)
    (item : HelperOut) (extract : HelperState → Bool) (guard : SrcFileFlags → Bool)
    (h : StepSpec opts item extract guard) (hitem : ∀ i, item ≠ HelperOut.fileBody i)
    (hcl : extract HelperState.cleared = false) :
    (doPrintBundle opts files HelperState.cleared).1.count item ≤ 1 := by
  by_cases hmk : opts.moduleKindSet
  · rw [doPrintBundle_decomp opts files HelperState.cleared hmk]
    simp only [List.count_append, count_fileBody_map _ _ hitem]
    have hc := pass_count opts item extract guard h files HelperState.cleared
    rw [hc, hcl]
    split <;> norm_num
  · rcases hh : emitHelpersForFiles opts files HelperState.cleared with ⟨o, s⟩
    simp [doPrintBundle, hmk, count_fileBody_map _ _ hitem]

/-- C3: each runtime-compatibility shim (`__extends`, `__decorate`,
`__param`, `__awaiter`) is emitted at most once per output file; its
text is part of the helper segment that precedes every file body of the
pass; and `doPrint` resets the per-shim already-emitted flags at the end
of each pass, so a later pass over a file that needs a shim emits it
again (independently of previous passes). -/
theorem c3_helper_shims_once_and_reset (opts : CompilerOptions)
    (files : List SrcFileFlags) (st : HelperState) (f f2 : SrcFileFlags) (eh : Bool) :
    ((doPrintBundle opts files HelperState.cleared).1.count .extendsHelper ≤ 1 ∧
     (doPrintBundle opts files HelperState.cleared).1.count .decorateHelper ≤ 1 ∧
     (doPrintBundle opts files HelperState.cleared).1.count .paramHelper ≤ 1 ∧
     (doPrintBundle opts files HelperState.cleared).1.count .awaiterHelper ≤ 1) ∧
    (opts.moduleKindSet = true → opts.noEmitHelpers = false → f ∈ files →
      (doPrintBundle opts files HelperState.cleared).1 =
        (emitHelpersForFiles opts files HelperState.cleared).1 ++
          (List.range files.length).map HelperOut.fileBody ∧
      ((opts.targetBelowES6 = true → f.hasClassExtends = true →
         HelperOut.extendsHelper ∈ (emitHelpersForFiles opts files HelperState.cleared).1) ∧
       (f.hasDecorators = true →
         HelperOut.decorateHelper ∈ (emitHelpersForFiles opts files HelperState.cleared).1) ∧
       (f.hasParamDecorators = true →
         HelperOut.paramHelper ∈ (emitHelpersForFiles opts files HelperState.cleared).1) ∧
       (f.hasAsyncFunctions = true →
         HelperOut.awaiterHelper ∈ (emitHelpersForFiles opts files HelperState.cleared).1))) ∧
    ((doPrintBundle opts files st).2 = HelperState.cleared ∧
     (doPrintSingle opts eh f2 st).2 = HelperState.cleared ∧
     doPrintSingle opts eh f2 ((doPrintBundle opts files st).2) =
       doPrintSingle opts eh f2 HelperState.cleared ∧
     (opts.noEmitHelpers = false → opts.targetBelowES6 = true →
      f2.hasClassExtends = true →
      HelperOut.extendsHelper ∈
        (doPrintSingle opts true f2 ((doPrintBundle opts files st).2)).1)) := by
  refine ⟨⟨?_, ?_, ?_, ?_⟩, ?_, ?_, ?_, ?_, ?_⟩
  · exact doPrintBundle_count_le_one opts files _ _ _ (stepSpec_extends opts)
      (by intro i; simp) rfl
  · exact doPrintBundle_count_le_one opts files _ _ _ (stepSpec_decorate opts)
      (by intro i; simp) rfl
  · exact doPrintBundle_count_le_one opts files _ _ _ (stepSpec_param opts)
      (by intro i; simp) rfl
  · exact doPrintBundle_count_le_one opts files _ _ _ (stepSpec_awaiter opts)
      (by intro i; simp) rfl
  · intro hmk hne hf
    refine ⟨by rw [doPrintBundle_decomp opts files HelperState.cleared hmk], ?_, ?_, ?_, ?_⟩
    · intro ht6 hx
      exact pass_mem opts _ _ _ (stepSpec_extends opts) files HelperState.cleared f hf
        (by simp [hne, ht6, hx]) rfl
    · intro hx
      exact pass_mem opts _ _ _ (stepSpec_decorate opts) files HelperState.cleared f hf
        (by simp [hne, hx]) rfl
    · intro hx
      exact pass_mem opts _ _ _ (stepSpec_param opts) files HelperState.cleared f hf
        (by simp [hne, hx]) rfl
    · intro hx
      exact pass_mem opts _ _ _ (stepSpec_awaiter opts) files HelperState.cleared f hf
        (by simp [hne, hx]) rfl
  · exact doPrintBundle_reset opts files st
  · rw [doPrintSingle_eq]
  · rw [doPrintBundle_reset opts files st]
  · intro hne ht6 hx
    rw [doPrintBundle_reset opts files st, doPrintSingle_eq]
    refine List.mem_append.mpr (Or.inl ?_)
    simpa using emitEmitHelpers_mem opts _ _ _ (stepSpec_extends opts) f2
      HelperState.cleared (by simp [hne, ht6, hx]) rfl

def c3wOpts : CompilerOptions :=
  { noEmitHelpers := false, emitDecoratorMetadata := false, removeComments := false,
    isolatedModules := false, targetBelowES6 := true, moduleKindSet := true }

def c3wFile : SrcFileFlags :=
  { hasClassExtends := true, hasDecorators := true,
    hasParamDecorators := true, hasAsyncFunctions := true }

theorem c3_helper_shims_once_and_reset_witness :
    HelperOut.extendsHelper ∈
      (emitHelpersForFiles c3wOpts [c3wFile] HelperState.cleared).1 ∧
    (doPrintBundle c3wOpts [c3wFile] HelperState.cleared).2 = HelperState.cleared :=
  ⟨((c3_helper_shims_once_and_reset c3wOpts [c3wFile] HelperState.cleared c3wFile
      c3wFile true).2.1 rfl rfl (by simp)).2.1 rfl rfl,
   (c3_helper_shims_once_and_reset c3wOpts [c3wFile] HelperState.cleared c3wFile
      c3wFile true).2.2.1⟩

/-! ## Claim C4 -/

/-- C4: when the resolver reports a constant for a property or
indexed-element access and isolated-module mode is off, the printer
emits the literal value followed by an inline comment naming the
accessed member unless comment removal is configured — and never the
subexpression; when isolated-module mode is on, the substitution never
happens and the original access expression is emitted (the reported
constant is ignored entirely). -/
theorem c4_constant_folding_substitution (opts : CompilerOptions) (env : LineEnv)
    (i d ni : PNode) (e a : Expr) (n : String) (v : JsNum) :
    (opts.isolatedModules = true →
      emitExpressionE opts env (.propAccess i e d ni n (some v)) =
        emitExpressionE opts env (.propAccess i e d ni n none) ∧
      emitExpressionE opts env (.elemAccess i e a (some v)) =
        emitExpressionE opts env (.elemAccess i e a none)) ∧
    (opts.isolatedModules = false →
      emitExpressionE opts env (.propAccess i e d ni n (some v)) =
        [.text v.str] ++
          (if opts.removeComments then [] else [.text (" /* " ++ n ++ " */")]) ∧
      emitExpressionE opts env (.elemAccess i e a (some v)) =
        [.text v.str] ++
          (if opts.removeComments then []
           else [.text (" /* " ++ getTextOfNodeE a ++ " */")])) := by
  constructor
  · intro hIso
    constructor <;>
      simp [emitExpressionE, tryEmitConstantValue, tryGetConstEnumValue, hIso]
  · intro hIso
    constructor <;>
    · simp [emitExpressionE, tryEmitConstantValue, tryGetConstEnumValue, hIso]
      cases opts.removeComments <;> simp

def c4wOptsIso : CompilerOptions :=
  { noEmitHelpers := false, emitDecoratorMetadata := false, removeComments := false,
    isolatedModules := true, targetBelowES6 := true, moduleKindSet := false }

def c4wOpts : CompilerOptions :=
  { c4wOptsIso with isolatedModules := false }

def c4wEnv : LineEnv :=
  { rangeEndIsOnSameLineAsRangeStart := fun _ _ => true,
    rangeIsOnSingleLine := fun _ => true,
    rangeStartPositionsAreOnSameLine := fun _ _ => true,
    rangeEndPositionsAreOnSameLine := fun _ _ => true }

def c4wInfo : PNode :=
  { synthesized := true, posIsSynthesized := true, startsOnNewLine := none }

def c4wTarget : Expr := .ident c4wInfo "E"

def c4wNum : JsNum := { str := "3", isIntegerValue := true }

theorem c4_constant_folding_substitution_witness :
    emitExpressionE c4wOptsIso c4wEnv
        (.propAccess c4wInfo c4wTarget c4wInfo c4wInfo "Name" (some c4wNum)) =
      emitExpressionE c4wOptsIso c4wEnv
        (.propAccess c4wInfo c4wTarget c4wInfo c4wInfo "Name" none) ∧
    emitExpressionE c4wOpts c4wEnv
        (.propAccess c4wInfo c4wTarget c4wInfo c4wInfo "Name" (some c4wNum)) =
      [.text "3"] ++
        (if c4wOpts.removeComments then [] else [.text (" /* " ++ "Name" ++ " */")]) :=
  ⟨((c4_constant_folding_substitution c4wOptsIso c4wEnv c4wInfo c4wInfo c4wInfo
      c4wTarget c4wTarget "Name" c4wNum).1 rfl).1,
   ((c4_constant_folding_substitution c4wOpts c4wEnv c4wInfo c4wInfo c4wInfo
      c4wTarget c4wTarget "Name" c4wNum).2 rfl).1⟩

/-! ## Claim C5 -/

def c5Opts : CompilerOptions :=
  { noEmitHelpers := false, emitDecoratorMetadata := false, removeComments := false,
    isolatedModules := false, targetBelowES6 := true, moduleKindSet := false }

def c5Env : LineEnv :=
  { rangeEndIsOnSameLineAsRangeStart := fun _ _ => true,
    rangeIsOnSingleLine := fun _ => true,
    rangeStartPositionsAreOnSameLine := fun _ _ => true,
    rangeEndPositionsAreOnSameLine := fun _ _ => true }

def c5SynthInfo : PNode :=
  { synthesized := true, posIsSynthesized := true, startsOnNewLine := none }

/-- A dot token carrying the explicit "starts on new line" hint. -/
def c5DotOnNewLine : PNode :=
  { synthesized := true, posIsSynthesized := true, startsOnNewLine := some true }

/-- `1 .toString` with the dot token asked to start on a new line. -/
def c5CexNode : Expr :=
  .propAccess c5SynthInfo (.numericLit c5SynthInfo "1") c5DotOnNewLine
    c5SynthInfo "toString" none

/-- C5 counterexample: the claim states that for *every* property access
on a dotless numeric-literal target the printer writes two periods. It
does not: when `needsIndentation` fires for the dot position (here the
dot token's `startsOnNewLine` hint is set), `emitPropertyAccessExpression`
suppresses the double dot (`shouldEmitDotDot = !indentBeforeDot && …`)
and writes an indent, a line break and a single period, although the
target's text `"1"` contains no dot. -/
theorem c5_dotdot_counterexample :
    emitExpressionE c5Opts c5Env c5CexNode =
      [.text "1", .indentInc, .newline, .text ".", .text "toString", .indentDec] ∧
    OutAtom.text ".." ∉ emitExpressionE c5Opts c5Env c5CexNode ∧
    ¬ ("1".data.contains '.' = true) := by decide

/-- C5 (amended): provided no indentation line break is inserted before
the dot (`needsIndentation` is false for the target/dot transition), a
property access on a numeric-literal target whose text contains no `.`
is written with two periods, and one on a target whose text contains a
`.` is written with a single period — the single-period half holding
even without the proviso; likewise a target whose resolver constant is
a finite integer gets two periods under the same proviso. -/
theorem c5_dotdot_amended (opts : CompilerOptions) (env : LineEnv)
    (i einfo d ni : PNode) (t n : String) (e : Expr) (v : JsNum) :
    (needsIndentation env i einfo d = false → '.' ∉ t.data →
      emitExpressionE opts env (.propAccess i (.numericLit einfo t) d ni n none) =
        [.text t, .text ".."] ++ increaseIndentIf (needsIndentation env i d ni) ++
          [.text n] ++ decreaseIndentIf false (needsIndentation env i d ni)) ∧
    ('.' ∈ t.data →
      emitExpressionE opts env (.propAccess i (.numericLit einfo t) d ni n none) =
        [.text t] ++ increaseIndentIf (needsIndentation env i einfo d) ++
          [.text "."] ++ increaseIndentIf (needsIndentation env i d ni) ++
          [.text n] ++
          decreaseIndentIf (needsIndentation env i einfo d) (needsIndentation env i d ni)) ∧
    (tryGetConstEnumValue opts e = some v → v.isIntegerValue = true →
      needsIndentation env i e.info d = false →
      emitExpressionE opts env (.propAccess i e d ni n none) =
        emitExpressionE opts env e ++ [.text ".."] ++
          increaseIndentIf (needsIndentation env i d ni) ++
          [.text n] ++ decreaseIndentIf false (needsIndentation env i d ni)) := by
  refine ⟨?_, ?_, ?_⟩
  · intro hN hdot
    simp [emitExpressionE, tryEmitConstantValue, tryGetConstEnumValue, Expr.info,
      needsDotDotForPropertyAccess, hN, hdot, increaseIndentIf, decreaseIndentIf]
  · intro hdot
    simp [emitExpressionE, tryEmitConstantValue, tryGetConstEnumValue, Expr.info,
      needsDotDotForPropertyAccess, hdot, increaseIndentIf, decreaseIndentIf]
  · intro htc hv hN
    have hdd : needsDotDotForPropertyAccess opts e = true := by
      cases e with
      | numericLit info text => simp [tryGetConstEnumValue] at htc
      | ident info text => simp [tryGetConstEnumValue] at htc
      | propAccess i2 e2 d2 ni2 n2 cv2 => simp [needsDotDotForPropertyAccess, htc, hv]
      | elemAccess i2 e2 a2 cv2 => simp [needsDotDotForPropertyAccess, htc, hv]
    simp [emitExpressionE, tryEmitConstantValue, tryGetConstEnumValue, hdd, hN,
      increaseIndentIf, decreaseIndentIf]

def c5wNoDot : Expr :=
  .propAccess c5SynthInfo (.numericLit c5SynthInfo "1") c5SynthInfo
    c5SynthInfo "toString" none

def c5wWithDot : Expr :=
  .propAccess c5SynthInfo (.numericLit c5SynthInfo "1.5") c5SynthInfo
    c5SynthInfo "toFixed" none

theorem c5_dotdot_amended_witness :
    emitExpressionE c5Opts c5Env c5wNoDot =
      [.text "1", .text ".."] ++ increaseIndentIf false ++ [.text "toString"] ++
        decreaseIndentIf false false ∧
    emitExpressionE c5Opts c5Env c5wWithDot =
      [.text "1.5"] ++ increaseIndentIf false ++ [.text "."] ++
        increaseIndentIf false ++ [.text "toFixed"] ++ decreaseIndentIf false false :=
  ⟨(c5_dotdot_amended c5Opts c5Env c5SynthInfo c5SynthInfo c5SynthInfo c5SynthInfo
      "1" "toString" (.numericLit c5SynthInfo "1") ⟨"0", true⟩).1 (by decide) (by decide),
   (c5_dotdot_amended c5Opts c5Env c5SynthInfo c5SynthInfo c5SynthInfo c5SynthInfo
      "1.5" "toFixed" (.numericLit c5SynthInfo "1.5") ⟨"0", true⟩).2.1 (by decide)⟩

/-! ## Claim C6 -/

/-- C6: for every empty child sequence handed to `emitNodeList`: when
the descriptor carries `OptionalIfEmpty`, nothing at all is written (the
emptiness check precedes any bracket write); otherwise, with bracket
bits set, the opening and closing brackets are still written, with
exactly one line break between them when multi-line layout is requested
(and only a space, or nothing, otherwise). -/
theorem c6_empty_list_emission (emitChild : LChild → List OutAtom) (env : LineEnv)
    (parentNode : PNode) (children : Option NodeArrayM) (format start count : Nat)
    (hEmpty : children = none ∨
      ∃ arr, children = some arr ∧
        (arr.elems.length = 0 ∨ start ≥ arr.elems.length ∨ count = 0)) :
    ((format &&& ListFormat.OptionalIfEmpty) ≠ 0 →
      emitNodeList emitChild env parentNode children format start count = []) ∧
    (∀ arr, children = some arr →
      (format &&& ListFormat.OptionalIfEmpty) = 0 →
      (format &&& ListFormat.BracketsMask) ≠ 0 →
      emitNodeList emitChild env parentNode children format start count =
        [.text (getOpeningBracket format)] ++
          (if (format &&& ListFormat.MultiLine) ≠ 0 then [.newline]
           else if (format &&& ListFormat.SpaceBetweenBraces) ≠ 0 then [.text " "]
           else []) ++
          [.text (getClosingBracket format)] ∧
      (emitNodeList emitChild env parentNode children format start count).count
          OutAtom.newline =
        (if (format &&& ListFormat.MultiLine) ≠ 0 then 1 else 0)) := by
  constructor
  · intro hOpt
    rcases hEmpty with h | ⟨arr, harr, hsz⟩
    · subst h
      by_cases hU : (format &&& ListFormat.OptionalIfUndefined) = 0
      · simp [emitNodeList, hU, hOpt]
      · simp [emitNodeList, hU, hOpt]
    · subst harr
      rcases hsz with h0 | hge | hc0
      · simp [emitNodeList, hOpt, h0]
      · have : start ≥ arr.elems.length := hge
        simp [emitNodeList, hOpt, this]
      · simp [emitNodeList, hOpt, hc0]
  · intro arr harr hOpt hBr
    subst harr
    have hsz : arr.elems.length = 0 ∨ start ≥ arr.elems.length ∨ count = 0 := by
      rcases hEmpty with h | ⟨arr2, harr2, hsz2⟩
      · cases h
      · cases harr2; exact hsz2
    have hmain : emitNodeList emitChild env parentNode (some arr) format start count =
        [.text (getOpeningBracket format)] ++
          (if (format &&& ListFormat.MultiLine) ≠ 0 then [.newline]
           else if (format &&& ListFormat.SpaceBetweenBraces) ≠ 0 then [.text " "]
           else []) ++
          [.text (getClosingBracket format)] := by
      rcases hsz with h0 | hge | hc0
      · simp [emitNodeList, hOpt, hBr, h0]
      · simp [emitNodeList, hOpt, hBr, hge]
      · simp [emitNodeList, hOpt, hBr, hc0]
    refine ⟨hmain, ?_⟩
    rw [hmain]
    by_cases hML : (format &&& ListFormat.MultiLine) = 0
    · simp [hML, List.count_append]
      by_cases hSB : (format &&& ListFormat.SpaceBetweenBraces) = 0 <;> simp [hSB]
    · simp [hML, List.count_append]

def c6wEnv : LineEnv :=
  { rangeEndIsOnSameLineAsRangeStart := fun _ _ => true,
    rangeIsOnSingleLine := fun _ => true,
    rangeStartPositionsAreOnSameLine := fun _ _ => true,
    rangeEndPositionsAreOnSameLine := fun _ _ => true }

def c6wParent : PNode :=
  { synthesized := true, posIsSynthesized := true, startsOnNewLine := none }

def c6wEmptyArr : NodeArrayM := { elems := [], hasTrailingComma := false }

theorem c6_empty_list_emission_witness :
    emitNodeList (fun _ => []) c6wEnv c6wParent (some c6wEmptyArr)
        (ListFormat.MultiLine ||| ListFormat.Braces ||| ListFormat.OptionalIfEmpty) 0 0 = [] ∧
    emitNodeList (fun _ => []) c6wEnv c6wParent (some c6wEmptyArr)
        (ListFormat.MultiLine ||| ListFormat.Braces) 0 0 =
      [.text (getOpeningBracket (ListFormat.MultiLine ||| ListFormat.Braces))] ++
        [.newline] ++
        [.text (getClosingBracket (ListFormat.MultiLine ||| ListFormat.Braces))] :=
  ⟨(c6_empty_list_emission (fun _ => []) c6wEnv c6wParent (some c6wEmptyArr)
      (ListFormat.MultiLine ||| ListFormat.Braces ||| ListFormat.OptionalIfEmpty) 0 0
      (Or.inr ⟨c6wEmptyArr, rfl, Or.inl rfl⟩)).1 (by decide),
   by
    have h := ((c6_empty_list_emission (fun _ => []) c6wEnv c6wParent (some c6wEmptyArr)
      (ListFormat.MultiLine ||| ListFormat.Braces) 0 0
      (Or.inr ⟨c6wEmptyArr, rfl, Or.inl rfl⟩)).2 c6wEmptyArr rfl (by decide) (by decide)).1
    simpa using h⟩

/-! ## Claim C7 -/

lemma noSubstitution_land_ne_zero (x : Nat) :
    ((NodeEmitFlags.NoSubstitution ||| x) &&& NodeEmitFlags.NoSubstitution) ≠ 0 := by
  intro h0
  have h : ((NodeEmitFlags.NoSubstitution ||| x) &&&
      NodeEmitFlags.NoSubstitution).testBit 0 = true := by
    simp [Nat.testBit_land, Nat.testBit_lor, NodeEmitFlags.NoSubstitution]
  rw [h0] at h
  simp [Nat.zero_testBit] at h

/-- C7: when the substitution hook is installed and the node is not
tagged `NoSubstitution`, and the hook returns a different node, the
returned node is emitted instead (the emission output is exactly the
dispatcher's output on the substitute, so the original's text is never
written); the substitute is tagged `NoSubstitution` in the side table
before the dispatcher runs; and on the substitute the hook is never
consulted again — `tryEmitSubstitute` returns `false` with no output and
no state change for every possible hook. -/
theorem c7_substitution_no_cycles (subF : SubNode → SubNode)
    (emitW : SubNode → FlagsTable → List OutAtom × FlagsTable)
    (n : SubNode) (tbl : FlagsTable)
    (hflag : getNodeEmitFlags tbl n &&& NodeEmitFlags.NoSubstitution = 0)
    (hne : subF n ≠ n) :
    (tryEmitSubstitute (some subF) emitW n tbl =
      (true,
        emitW (subF n) (setNodeEmitFlags tbl (subF n)
          (NodeEmitFlags.NoSubstitution ||| getNodeEmitFlags tbl (subF n))))) ∧
    (getNodeEmitFlags (setNodeEmitFlags tbl (subF n)
        (NodeEmitFlags.NoSubstitution ||| getNodeEmitFlags tbl (subF n))) (subF n) &&&
      NodeEmitFlags.NoSubstitution) ≠ 0 ∧
    (∀ (subF2 : SubNode → SubNode) (emitW2 : SubNode → FlagsTable → List OutAtom × FlagsTable),
      tryEmitSubstitute (some subF2) emitW2 (subF n)
          (setNodeEmitFlags tbl (subF n)
            (NodeEmitFlags.NoSubstitution ||| getNodeEmitFlags tbl (subF n))) =
        (false, [],
          setNodeEmitFlags tbl (subF n)
            (NodeEmitFlags.NoSubstitution ||| getNodeEmitFlags tbl (subF n)))) := by
  have hlook : getNodeEmitFlags (setNodeEmitFlags tbl (subF n)
      (NodeEmitFlags.NoSubstitution ||| getNodeEmitFlags tbl (subF n))) (subF n) =
      NodeEmitFlags.NoSubstitution ||| getNodeEmitFlags tbl (subF n) := by
    simp [getNodeEmitFlags, setNodeEmitFlags, List.lookup]
  refine ⟨?_, ?_, ?_⟩
  · simp [tryEmitSubstitute, hflag, hne]
  · rw [hlook]
    exact noSubstitution_land_ne_zero _
  · intro subF2 emitW2
    simp [tryEmitSubstitute, hlook]
    intro h
    exact absurd h (noSubstitution_land_ne_zero _)

def c7wSub : SubNode → SubNode := fun _ => ⟨2⟩

def c7wEmit : SubNode → FlagsTable → List OutAtom × FlagsTable :=
  fun _ tbl => ([OutAtom.text "substitute"], tbl)

theorem c7_substitution_no_cycles_witness :
    tryEmitSubstitute (some c7wSub) c7wEmit ⟨1⟩ ([] : FlagsTable) =
      (true, c7wEmit (c7wSub ⟨1⟩)
        (setNodeEmitFlags [] (c7wSub ⟨1⟩)
          (NodeEmitFlags.NoSubstitution ||| getNodeEmitFlags [] (c7wSub ⟨1⟩)))) ∧
    tryEmitSubstitute (some c7wSub) c7wEmit (c7wSub ⟨1⟩)
        (setNodeEmitFlags [] (c7wSub ⟨1⟩)
          (NodeEmitFlags.NoSubstitution ||| getNodeEmitFlags [] (c7wSub ⟨1⟩))) =
      (false, [],
        setNodeEmitFlags [] (c7wSub ⟨1⟩)
          (NodeEmitFlags.NoSubstitution ||| getNodeEmitFlags [] (c7wSub ⟨1⟩))) :=
  ⟨(c7_substitution_no_cycles c7wSub c7wEmit ⟨1⟩ [] (by decide) (by decide)).1,
   (c7_substitution_no_cycles c7wSub c7wEmit ⟨1⟩ [] (by decide) (by decide)).2.2
     c7wSub c7wEmit⟩

/-! ## Claim C9 -/

lemma count_startMark_map_comment (l : List String) (i : Nat) :
    (l.map TraceEv.comment).count (TraceEv.startMark i) = 0 :=
  List.count_eq_zero.mpr (by simp)

lemma count_endMark_map_comment (l : List String) (i : Nat) :
    (l.map TraceEv.comment).count (TraceEv.endMark i) = 0 :=
  List.count_eq_zero.mpr (by simp)

/-- C9: every node emitted through `emitNodeWithWorker` is bracketed by
one `emitStart` mark before the kind-specific worker runs and one
matching `emitEnd` mark after it returns; when the worker itself emits
no marks for the node, the position-map collaborator receives exactly
one start and one end mark for it — even when the worker writes no text
at all. The surrounding segments are pure comment emission and contain
no position marks. -/
theorem c9_position_marks_paired (env : CommentEnv) (emitWorker : Nat → List TraceEv)
    (n : Nat)
    (hs : (emitWorker n).count (TraceEv.startMark n) = 0)
    (he : (emitWorker n).count (TraceEv.endMark n) = 0) :
    (∃ pre post,
      emitNodeWithWorker env emitWorker (some n) =
        pre ++ [TraceEv.startMark n] ++ emitWorker n ++ [TraceEv.endMark n] ++ post ∧
      (∀ m, TraceEv.startMark m ∉ pre ∧ TraceEv.endMark m ∉ pre) ∧
      (∀ m, TraceEv.startMark m ∉ post ∧ TraceEv.endMark m ∉ post)) ∧
    (emitNodeWithWorker env emitWorker (some n)).count (TraceEv.startMark n) = 1 ∧
    (emitNodeWithWorker env emitWorker (some n)).count (TraceEv.endMark n) = 1 := by
  refine ⟨⟨(env.getLeadingComments n).map TraceEv.comment,
      (env.getTrailingComments n).map TraceEv.comment, ?_, ?_, ?_⟩, ?_, ?_⟩
  · simp [emitNodeWithWorker]
  · intro m
    constructor <;> simp
  · intro m
    constructor <;> simp
  · simp [emitNodeWithWorker, List.count_append, hs,
      count_startMark_map_comment, count_endMark_map_comment]
  · simp [emitNodeWithWorker, List.count_append, he,
      count_startMark_map_comment, count_endMark_map_comment]

def c9wEnv : CommentEnv :=
  { getLeadingComments := fun _ => ["lead"],
    getTrailingComments := fun _ => ["trail"] }

theorem c9_position_marks_paired_witness :
    (emitNodeWithWorker c9wEnv (fun _ => []) (some 7)).count (TraceEv.startMark 7) = 1 ∧
    (emitNodeWithWorker c9wEnv (fun _ => []) (some 7)).count (TraceEv.endMark 7) = 1 :=
  ⟨(c9_position_marks_paired c9wEnv (fun _ => []) 7 (by decide) (by decide)).2.1,
   (c9_position_marks_paired c9wEnv (fun _ => []) 7 (by decide) (by decide)).2.2⟩

end TSPrinter
